import Mathlib

/-!
Package gochain: a handler chain with reflective field updates.

A shallow embedding of `main.go` (package `gochain`).

* Go types and values are modelled by `GoType` and `GoVal`; the part of
  package `reflect` that `UpdateContext` and `UpdateResult` call is modelled
  by `reflect.Value` and its methods.
* A chain `Chain T U` carries the four fields of the Go struct.  The type
  parameters `T` and `U` are the `GoType`s the chain is instantiated at.
* A handler is modelled by the calls it makes on the chain it receives
  (`Handler`), so that what a handler can do to a chain is exactly what the
  exported API and the stop callback allow.
* A Go panic is the `.error` case of `Except String`.
* A struct type may embed struct types, by value or by pointer; the lookup
  of a field by name follows `reflect` through the embedded structs.  A
  non-nil pointer is modelled by the value it points to, so two pointers to
  one variable are not told apart.
-/

namespace Gochain

/-! ## Go types and values -/

/-- The values of `reflect.Kind` for the types modelled here. -/
inductive Kind where
  | Invalid | Bool | Int | Int8 | Int16 | Int32 | Int64
  | Uint | Uint8 | Uint16 | Uint32 | Uint64 | Float32 | Float64
  | Interface | Map | Pointer | Slice | String | Struct
  deriving DecidableEq, Repr

mutual
/-- A Go type.  Two Go types are identical exactly when their descriptions
are equal: a defined type is identified by its package path and name.  A
defined type carries its underlying type, so a type that refers to itself,
such as a struct that embeds a pointer to itself, has no description. -/
inductive GoType where
  | bool | int | int8 | int16 | int32 | int64
  | uint | uint8 | uint16 | uint32 | uint64 | float32 | float64
  | string
  | pointer (elem : GoType)
  | slice (elem : GoType)
  | map (key : GoType) (elem : GoType)
  | iface (methods : List String)
  | struct (fields : FieldList)
  | named (pkgPath : String) (name : String) (underlying : GoType)
  deriving DecidableEq
/-- The fields of a struct type in declaration order: name, whether the
name is exported, whether the field is embedded, declared type. -/
inductive FieldList where
  | nil
  | cons (name : String) (exported : Bool) (embedded : Bool) (typ : GoType)
      (rest : FieldList)
  deriving DecidableEq
end

/-- A Go value, without its type.  A struct value holds its field values
by position; `pointer target` is a non-nil pointer to a variable that holds
`target`; `ref addr` is a non-nil reference whose target is not modelled. -/
inductive GoVal where
  | bool (b : Bool)
  | int (i : Int)
  | float (num : Int) (den : Nat)
  | string (s : String)
  | nil
  | ref (addr : Nat)
  | pointer (target : GoVal)
  | list (elems : List GoVal)
  | boxed (typ : GoType) (v : GoVal)
  | struct (fields : List GoVal)

/-- A non-nil value of type `any`: its dynamic type and its value. -/
structure Dyn where
  typ : GoType
  val : GoVal

/-- A value of type `any`; `none` is the nil interface. -/
abbrev GoAny := Option Dyn

/-- One field of a struct type, as `reflect` describes it. -/
structure StructField where
  index : Nat
  name : String
  exported : Bool
  typ : GoType
  deriving DecidableEq

/-- The kind of a type (`reflect.Type.Kind`): that of its underlying type. -/
def GoType.Kind : GoType → Kind
  | .bool => .Bool
  | .int => .Int
  | .int8 => .Int8
  | .int16 => .Int16
  | .int32 => .Int32
  | .int64 => .Int64
  | .uint => .Uint
  | .uint8 => .Uint8
  | .uint16 => .Uint16
  | .uint32 => .Uint32
  | .uint64 => .Uint64
  | .float32 => .Float32
  | .float64 => .Float64
  | .string => .String
  | .pointer _ => .Pointer
  | .slice _ => .Slice
  | .map _ _ => .Map
  | .iface _ => .Interface
  | .struct _ => .Struct
  | .named _ _ u => u.Kind

/-- The field list of a type whose kind is `Struct`; empty for other kinds. -/
def GoType.fields : GoType → FieldList
  | .struct fs => fs
  | .named _ _ u => u.fields
  | _ => .nil

/-- The element type of a pointer type (`reflect.Type.Elem`); a type of
another kind is returned as it is. -/
def GoType.Elem : GoType → GoType
  | .pointer e => e
  | .named _ _ u => u.Elem
  | t => t

/-- Number of fields. -/
def FieldList.length : FieldList → Nat
  | .nil => 0
  | .cons _ _ _ _ rest => rest.length + 1

/-- The first field called `name`, searching from position `i`. -/
def FieldList.find (name : String) : FieldList → Nat → Option StructField
  | .nil, _ => none
  | .cons n e _ t rest, i =>
    if n = name then some ⟨i, n, e, t⟩ else rest.find name (i + 1)

/-- Whether one of the fields is embedded. -/
def FieldList.hasEmbeds : FieldList → Bool
  | .nil => false
  | .cons _ _ embedded _ rest => embedded || rest.hasEmbeds

mutual
/-- How deep structs are embedded in a type: 0 for a type that is no
struct, and for a struct one more than the deepest of its embedded fields;
a pointer counts as the type it points to. -/
def GoType.embedDepth : GoType → Nat
  | .struct fs => fs.embedDepth + 1
  | .named _ _ u => u.embedDepth
  | .pointer e => e.embedDepth
  | _ => 0
/-- The deepest of the embedded fields of a field list. -/
def FieldList.embedDepth : FieldList → Nat
  | .nil => 0
  | .cons _ _ embedded t rest =>
    max (if embedded then t.embedDepth else 0) rest.embedDepth
end

mutual
/-- The zero value of a type. -/
def GoType.zero : GoType → GoVal
  | .bool => .bool false
  | .int | .int8 | .int16 | .int32 | .int64 => .int 0
  | .uint | .uint8 | .uint16 | .uint32 | .uint64 => .int 0
  | .float32 | .float64 => .float 0 1
  | .string => .string ""
  | .pointer _ | .slice _ | .map _ _ | .iface _ => .nil
  | .struct fs => .struct fs.zeros
  | .named _ _ u => u.zero
/-- The zero values of the fields of a struct type. -/
def FieldList.zeros : FieldList → List GoVal
  | .nil => []
  | .cons _ _ _ t rest => t.zero :: rest.zeros
end

/-- A struct value has one slot for each field of its type; values of
other kinds are not constrained. -/
def GoVal.hasShape (T : GoType) (v : GoVal) : Bool :=
  match T.Kind, v with
  | .Struct, .struct fs => fs.length == T.fields.length
  | .Struct, _ => false
  | _, _ => true

/-- A struct value with slot `i` replaced; a value that is not a struct
value, or has no slot `i`, is left as it is. -/
def GoVal.setField : GoVal → Nat → GoVal → GoVal
  | .struct fs, i, new => .struct (fs.set i new)
  | other, _, _ => other

/-- The value in slot `i` of a struct value. -/
def GoVal.field (v : GoVal) (i : Nat) : Option GoVal :=
  match v with
  | .struct fs => fs[i]?
  | _ => none

/-- Whether walking from a struct value down the embedded fields at the
positions `outer` meets a nil pointer. -/
def GoVal.nilEmbedded : GoVal → List Nat → Bool
  | _, [] => false
  | v, i :: rest =>
    match v.field i with
    | some .nil => true
    | some (.pointer target) => target.nilEmbedded rest
    | some s => s.nilEmbedded rest
    | none => false

/-- A struct value after an assignment to the field reached by walking
down the embedded fields at the positions `outer`, through pointers where
they are embedded by pointer, and then taking slot `i`.  A slot on the way
that holds no struct and no pointer to a modelled value is left as it
is. -/
def GoVal.setPath : GoVal → List Nat → Nat → GoVal → GoVal
  | v, [], i, new => v.setField i new
  | v, j :: rest, i, new =>
    match v with
    | .struct fs =>
      .struct (fs.modify (fun s =>
        match s with
        | .pointer target => .pointer (target.setPath rest i new)
        | other => other.setPath rest i new) j)
    | other => other

/-! ## Field lookup by name on a struct type -/

mutual
/-- Whether a field called `name` is declared in the type or in a struct
embedded in it, by value or by pointer, at any depth. -/
def GoType.hasFieldNamed (name : String) : GoType → Bool
  | .struct fs => fs.hasFieldNamed name
  | .named _ _ u => u.hasFieldNamed name
  | .pointer e => e.hasFieldNamed name
  | _ => false
/-- Whether a field called `name` is among the fields or in a struct
embedded in one of them. -/
def FieldList.hasFieldNamed (name : String) : FieldList → Bool
  | .nil => false
  | .cons n _ embedded t rest =>
    decide (n = name) || (embedded && t.hasFieldNamed name) || rest.hasFieldNamed name
end

/-- An entry of the work queues of `FieldByNameFunc`: a struct type to scan
and the positions of the embedded fields that lead to it. -/
structure fieldScan where
  typ : GoType
  index : List Nat

/-- The variables that the loops of `FieldByNameFunc` update: `result`
(with `ok`, which is set when `result` is), the queue `next`, the map
`nextCount` and the set `visited`. -/
structure scanState where
  result : Option (List Nat × StructField)
  next : List fieldScan
  nextCount : List (GoType × Nat)
  visited : List GoType

/-- The entry of a count map for a type; 0 when it has none. -/
def countOf (count : List (GoType × Nat)) (t : GoType) : Nat :=
  (count.lookup t).getD 0

/-- The innermost loop of `FieldByNameFunc`, over the fields of the struct
type of `scan` from position `i` on.  A field called `name` is a match: a
second match on the level, or a match in a type reached more than once,
ends the search without a result (`none`).  Otherwise an embedded struct, or
pointer to struct, is queued for the next level, unless a match was seen on
this level; a type queued before has its count raised. -/
def scanFields (name : String) (scan : fieldScan) (count : List (GoType × Nat)) :
    FieldList → Nat → scanState → Option scanState
  | .nil, _, st => some st
  | .cons fname exported embedded ftyp rest, i, st =>
    if fname = name then
      if countOf count scan.typ > 1 ∨ st.result.isSome then none
      else
        scanFields name scan count rest (i + 1)
          { st with result := some (scan.index, ⟨i, fname, exported, ftyp⟩) }
    else
      let ntyp := if ftyp.Kind = .Pointer then ftyp.Elem else ftyp
      if st.result.isSome ∨ embedded = false ∨ ntyp.Kind ≠ .Struct then
        scanFields name scan count rest (i + 1) st
      else if countOf st.nextCount ntyp > 0 then
        scanFields name scan count rest (i + 1)
          { st with nextCount := (ntyp, 2) :: st.nextCount }
      else
        scanFields name scan count rest (i + 1)
          { st with
            nextCount := (ntyp, if countOf count scan.typ > 1 then 2 else 1) :: st.nextCount
            next := st.next ++ [⟨ntyp, scan.index ++ [i]⟩] }

/-- The loop of `FieldByNameFunc` over the struct types of one level; a
type visited before is skipped. -/
def scanLevel (name : String) (count : List (GoType × Nat)) :
    List fieldScan → scanState → Option scanState
  | [], st => some st
  | scan :: more, st =>
    if scan.typ ∈ st.visited then scanLevel name count more st
    else
      match scanFields name scan count scan.typ.fields 0
          { st with visited := scan.typ :: st.visited } with
      | none => none
      | some st' => scanLevel name count more st'

/-- The outer loop of `FieldByNameFunc`, one level of embedding at a time,
until a level has a match or no struct is left to scan.  The number of
levels is bounded by `fuel`. -/
def scanLevels (name : String) :
    Nat → List fieldScan → List (GoType × Nat) → List GoType →
      Option (List Nat × StructField)
  | 0, _, _, _ => none
  | fuel + 1, next, nextCount, visited =>
    match next with
    | [] => none
    | _ :: _ =>
      match scanLevel name nextCount next ⟨none, [], [], visited⟩ with
      | none => none
      | some st =>
        match st.result with
        | some r => some r
        | none => scanLevels name fuel st.next st.nextCount st.visited

/-- The method `FieldByNameFunc` of a struct type, called with the match
`s == name`: the breadth-first search for a field called `name`, declared
or promoted, with the positions of the embedded fields that lead to it.
The levels of a type number at most its embedding depth. -/
def GoType.FieldByNameFunc (t : GoType) (name : String) : Option (List Nat × StructField) :=
  scanLevels name (t.embedDepth + 1) [⟨t, []⟩] [] []

/-- The method `FieldByName` of a struct type: the first declared field
called `name` if there is one; otherwise, when the struct has embedded
fields, what `FieldByNameFunc` finds.  The empty name matches no field. -/
def GoType.FieldByName (t : GoType) (name : String) : Option (List Nat × StructField) :=
  if name = "" then none
  else
    match t.fields.find name 0 with
    | some f => some ([], f)
    | none => if t.fields.hasEmbeds then t.FieldByNameFunc name else none

/-! ## Errors -/

/-- A non-nil Go `error`.  `errorString id s` is the pointer returned by one
evaluation of `errors.New(s)`; `id` stands for its address.  `formatted s`
is the newly allocated error returned by `fmt.Errorf` (no `%w` verb).
`join a b` is `errors.Join(a, b)` with both arguments non-nil. -/
inductive GoError where
  | errorString (id : Nat) (s : String)
  | formatted (s : String)
  | join (a : GoError) (b : GoError)
  deriving DecidableEq, Repr

/-- Package variable `ErrContextIsUndefined`. -/
def ErrContextIsUndefined : GoError := .errorString 0 "context is undefined"
/-- Package variable `ErrContextShouldBeStruct`. -/
def ErrContextShouldBeStruct : GoError := .errorString 1 "context should be a struct"
/-- Package variable `ErrResultIsUndefined`. -/
def ErrResultIsUndefined : GoError := .errorString 2 "result is undefined"
/-- Package variable `ErrResultShouldBeStruct`. -/
def ErrResultShouldBeStruct : GoError := .errorString 3 "result should be a struct"
/-- Package variable `ErrStructFieldNotExported`. -/
def ErrStructFieldNotExported : GoError := .errorString 4 "struct field is not exported"
/-- Package variable `ErrStructFieldCannotBeChanged`. -/
def ErrStructFieldCannotBeChanged : GoError := .errorString 5 "struct field cannot be changed"
/-- Package variable `ErrIncompatibleValueType`. -/
def ErrIncompatibleValueType : GoError := .errorString 6 "incompatible value type"

namespace errors

/-- The function `errors.Join` at two non-nil arguments. -/
def Join (a b : GoError) : GoError := .join a b

/-- The function `errors.Is` for non-nil `err` and `target`: `err` is
`target`, or one of the errors `err` joins matches `target`. -/
def Is : GoError → GoError → Bool
  | .join a b, target => decide (GoError.join a b = target) || Is a target || Is b target
  | err, target => decide (err = target)

end errors

namespace fmt

/-- The call `fmt.Errorf(format, a)` for a format made of `before`, one
`%s` verb and `after`. -/
def Errorf (before : String) (after : String) (a : String) : GoError :=
  .formatted (before ++ a ++ after)

end fmt

/-! ## The part of package reflect used by the chain -/

namespace reflect

/-- A `reflect.Value`, by the way it was obtained.
* `zero`: the zero Value.
* `rvalue typ v`: `reflect.ValueOf(x)` for a non-nil interface `x` holding
  `v` of dynamic type `typ`.
* `ptrTo T x`: `reflect.ValueOf(&x)` for a variable `x` of type `T` that
  currently holds `x`.
* `var T x`: the variable itself, reached through `Elem`; addressable.
* `field T x outer f`: a field of the addressable struct variable `x : T`,
  reached by the embedded fields at the positions `outer` and then field
  `f` of the struct these lead to; `outer` is empty for a declared field. -/
inductive Value where
  | zero
  | rvalue (typ : GoType) (v : GoVal)
  | ptrTo (T : GoType) (x : GoVal)
  | var (T : GoType) (x : GoVal)
  | field (T : GoType) (x : GoVal) (outer : List Nat) (f : StructField)

/-- The function `reflect.ValueOf`: the zero Value for a nil interface. -/
def ValueOf : GoAny → Value
  | none => .zero
  | some d => .rvalue d.typ d.val

/-- The call `reflect.ValueOf(&x)` for a variable `x` of type `T`. -/
def ValueOfAddr (T : GoType) (x : GoVal) : Value := .ptrTo T x

/-- The method `Value.IsValid`. -/
def Value.IsValid : Value → Bool
  | .zero => false
  | _ => true

/-- The method `Value.Type`; it panics on the zero Value. -/
def Value.Type : Value → Except String GoType
  | .zero => .error "reflect: call of reflect.Value.Type on zero Value"
  | .rvalue typ _ => .ok typ
  | .ptrTo T _ => .ok (.pointer T)
  | .var T _ => .ok T
  | .field _ _ _ f => .ok f.typ

/-- The method `Value.Kind`; `Invalid` for the zero Value. -/
def Value.Kind : Value → Kind
  | .zero => .Invalid
  | .rvalue typ _ => typ.Kind
  | .ptrTo _ _ => .Pointer
  | .var T _ => T.Kind
  | .field _ _ _ f => f.typ.Kind

/-- The method `Value.Elem`.  On a pointer to a variable it is that
variable.  It panics on a Value whose kind is neither `Pointer` nor
`Interface`; for the other Values of these two kinds, which the chain never
builds, what they refer to is not modelled and the zero Value stands for
it. -/
def Value.Elem : Value → Except String Value
  | .ptrTo T x => .ok (.var T x)
  | .zero => .error "reflect: call of reflect.Value.Elem on zero Value"
  | v =>
    if v.Kind = .Pointer ∨ v.Kind = .Interface then .ok .zero
    else .error "reflect: call of reflect.Value.Elem on a non-pointer Value"

/-- The method `Value.FieldByIndex` on the addressed variable, for the
positions `outer` followed by the position of `f`: it walks down the
embedded fields and panics when one of them is a nil pointer. -/
def Value.FieldByIndex : Value → List Nat → StructField → Except String Value
  | .var T x, outer, f =>
    if x.nilEmbedded outer then
      .error "reflect: indirection through nil pointer to embedded struct"
    else .ok (.field T x outer f)
  | _, _, _ => .ok .zero

/-- The method `Value.FieldByName`: the field that the type's `FieldByName`
finds, declared or promoted, reached by `FieldByIndex`, or the zero Value.
It panics when the kind is not `Struct`.  The chain calls it on the
addressed variable only; on the other Values of kind `Struct` the fields are
not modelled and the zero Value stands for them. -/
def Value.FieldByName (v : Value) (name : String) : Except String Value :=
  if v.Kind ≠ .Struct then
    .error "reflect: call of reflect.Value.FieldByName on a non-struct Value"
  else
    match v with
    | .var T x =>
      match T.FieldByName name with
      | some (outer, f) => (Value.var T x).FieldByIndex outer f
      | none => .ok .zero
    | _ => .ok .zero

/-- The method `Value.CanSet`: the Value is addressable and read-only by
none of its flags.  A field of the addressed variable is addressable, and
it is read-only exactly when it is itself unexported: the flag that an
unexported embedded field sets is cleared by the field taken next. -/
def Value.CanSet : Value → Bool
  | .var _ _ => true
  | .field _ _ _ f => f.exported
  | _ => false

/-- The method `Value.Set` on a settable field, for a source Value of the
field's own type: the content of the addressed variable after the
assignment.  It panics when the receiver cannot be set, when the source is
the zero Value, and when the types differ. -/
def Value.Set (v : Value) (x : Value) : Except String GoVal :=
  if !v.CanSet then .error "reflect: reflect.Value.Set using unaddressable value"
  else
    match v, x with
    | .field _ root outer f, .rvalue typ new =>
      if f.typ = typ then .ok (root.setPath outer f.index new)
      else .error "reflect.Set: value is not assignable to the type of the field"
    | _, _ => .error "reflect: call of reflect.Value.Set on zero Value"

end reflect

/-! ## The chain -/

/-- A handler, by the calls it makes on the chain it is given before it
returns: the stop callback, `Add`, `GetContext`, `GetResult`,
`UpdateContext` and `UpdateResult` (whose results it may inspect), ending
with the error it returns (`none` for nil).  A handler that calls `Run` on
its own chain is not modelled. -/
inductive Handler where
  | ret (err : Option GoError)
  | stop (next : Handler)
  | add (h : Handler) (next : Handler)
  | getContext (next : GoVal → Handler)
  | getResult (next : GoVal → Handler)
  | updateContext (fieldName : String) (value : GoAny) (next : Option GoError → Handler)
  | updateResult (fieldName : String) (value : GoAny) (next : Option GoError → Handler)

/-- The struct `Chain[T, U]`. -/
structure Chain (T U : GoType) where
  ctx : GoVal
  result : GoVal
  handlers : List Handler
  forcedStop : Bool

variable {T U : GoType}

/-- The function `NewChain`. -/
def NewChain (T U : GoType) : Chain T U :=
  { ctx := T.zero, result := U.zero, handlers := [], forcedStop := false }

/-- The method `Add`: the chain after the call (the method returns its
receiver). -/
def Chain.Add (c : Chain T U) (handler : Handler) : Chain T U :=
  { c with handlers := c.handlers ++ [handler] }

/-- The effect on `chain` of calling the closure returned by
`stop(chain)`. -/
def stop (chain : Chain T U) : Chain T U :=
  { chain with forcedStop := true }

/-- The method `GetContext`. -/
def Chain.GetContext (c : Chain T U) : GoVal := c.ctx

/-- The method `GetResult`. -/
def Chain.GetResult (c : Chain T U) : GoVal := c.result

/-- The method `UpdateContext`: the chain after the call and the error
returned, or a panic. -/
def Chain.UpdateContext (c : Chain T U) (fieldName : String) (value : GoAny) :
    Except String (Chain T U × Option GoError) :=
  let pointer := reflect.ValueOfAddr T c.ctx
  if pointer.Kind ≠ .Pointer then .ok (c, some ErrContextIsUndefined)
  else
    match pointer.Elem with
    | .error p => .error p
    | .ok pointerValue =>
      if pointerValue.Kind ≠ .Struct then .ok (c, some ErrContextShouldBeStruct)
      else
        match pointerValue.FieldByName fieldName with
        | .error p => .error p
        | .ok field =>
          if !field.IsValid then
            .ok (c, some (errors.Join ErrStructFieldNotExported
              (fmt.Errorf "the " " field does not exist" fieldName)))
          else if !field.CanSet then
            .ok (c, some (errors.Join ErrStructFieldCannotBeChanged
              (fmt.Errorf "the " " field cannot be changed" fieldName)))
          else
            let fieldValue := reflect.ValueOf value
            match field.Type, fieldValue.Type with
            | .error p, _ => .error p
            | _, .error p => .error p
            | .ok ft, .ok vt =>
              if ft ≠ vt then
                .ok (c, some (errors.Join ErrIncompatibleValueType
                  (fmt.Errorf "The value type is incompatible with the " " field" fieldName)))
              else
                match field.Set fieldValue with
                | .error p => .error p
                | .ok x => .ok ({ c with ctx := x }, none)

/-- The method `UpdateResult`: the chain after the call and the error
returned, or a panic. -/
def Chain.UpdateResult (c : Chain T U) (fieldName : String) (value : GoAny) :
    Except String (Chain T U × Option GoError) :=
  let pointer := reflect.ValueOfAddr U c.result
  if pointer.Kind ≠ .Pointer then .ok (c, some ErrResultIsUndefined)
  else
    match pointer.Elem with
    | .error p => .error p
    | .ok pointerValue =>
      if pointerValue.Kind ≠ .Struct then .ok (c, some ErrResultShouldBeStruct)
      else
        match pointerValue.FieldByName fieldName with
        | .error p => .error p
        | .ok field =>
          if !field.IsValid then .ok (c, some ErrStructFieldNotExported)
          else if !field.CanSet then
            .ok (c, some (errors.Join ErrStructFieldCannotBeChanged
              (fmt.Errorf "the " " field cannot be changed" fieldName)))
          else
            let fieldValue := reflect.ValueOf value
            match field.Type, fieldValue.Type with
            | .error p, _ => .error p
            | _, .error p => .error p
            | .ok ft, .ok vt =>
              if ft ≠ vt then
                .ok (c, some (errors.Join ErrIncompatibleValueType
                  (fmt.Errorf "The value type is incompatible with the " " field" fieldName)))
              else
                match field.Set fieldValue with
                | .error p => .error p
                | .ok x => .ok ({ c with result := x }, none)

/-- The call `handler(c, stop(c))`: the chain when the handler returns and
the error it returns, or a panic. -/
def Handler.call : Handler → Chain T U → Except String (Chain T U × Option GoError)
  | .ret err, c => .ok (c, err)
  | .stop next, c => next.call (Gochain.stop c)
  | .add h next, c => next.call (c.Add h)
  | .getContext next, c => (next c.GetContext).call c
  | .getResult next, c => (next c.GetResult).call c
  | .updateContext fieldName value next, c =>
    match c.UpdateContext fieldName value with
    | .error p => .error p
    | .ok (c', err) => (next err).call c'
  | .updateResult fieldName value next, c =>
    match c.UpdateResult fieldName value with
    | .error p => .error p
    | .ok (c', err) => (next err).call c'

/-- Whether the call `handler(c, stop(c))` calls the stop callback before
it returns or panics. -/
def Handler.callsStop : Handler → Chain T U → Bool
  | .ret _, _ => false
  | .stop _, _ => true
  | .add h next, c => next.callsStop (c.Add h)
  | .getContext next, c => (next c.GetContext).callsStop c
  | .getResult next, c => (next c.GetResult).callsStop c
  | .updateContext fieldName value next, c =>
    match c.UpdateContext fieldName value with
    | .error _ => false
    | .ok (c', err) => (next err).callsStop c'
  | .updateResult fieldName value next, c =>
    match c.UpdateResult fieldName value with
    | .error _ => false
    | .ok (c', err) => (next err).callsStop c'

/-- What a call of `Run` leaves behind when it returns: the chain, the
error returned, and the positions (from 0) of the handlers it called, in
call order. -/
structure RunResult (T U : GoType) where
  chain : Chain T U
  err : Option GoError
  invoked : List Nat

/-- The loop of `Run` over the handlers still to visit; `i` is the position
of the first of them and `log` the positions already called. -/
def runLoop : List Handler → Nat → Chain T U → List Nat → Except String (RunResult T U)
  | [], _, c, log => .ok ⟨c, none, log⟩
  | handler :: rest, i, c, log =>
    match handler.call c with
    | .error p => .error p
    | .ok (c', some err) => .ok ⟨c', some err, log ++ [i]⟩
    | .ok (c', none) =>
      if c'.forcedStop then .ok ⟨c', none, log ++ [i]⟩
      else runLoop rest (i + 1) c' (log ++ [i])

/-- The method `Run`.  The range expression `c.handlers` is evaluated once,
so handlers added while `Run` is in progress are not visited by it. -/
def Chain.Run (c : Chain T U) : Except String (RunResult T U) :=
  runLoop c.handlers 0 c []

/-- The chain `NewChain().Add(h1)...Add(hn)`. -/
def chainOf (T U : GoType) (hs : List Handler) : Chain T U :=
  hs.foldl Chain.Add (NewChain T U)

/-- Running handlers one after the other on the chain, each on the state
the previous one left, whatever they return: the left-to-right composition
of the handlers. -/
def callInOrder : List Handler → Chain T U → Except String (Chain T U)
  | [], c => .ok c
  | h :: rest, c =>
    match h.call c with
    | .error p => .error p
    | .ok (c', _) => callInOrder rest c'

/-- The handlers, called one after the other from chain `c`, all return
nil and none of them calls the stop callback; the result is the chain they
leave. -/
def callAllQuiet : List Handler → Chain T U → Option (Chain T U)
  | [], c => some c
  | h :: rest, c =>
    match h.call c with
    | .ok (c', none) => if h.callsStop c then none else callAllQuiet rest c'
    | _ => none

/-- Whether some handler that the loop of `Run` calls, over these handlers
from chain `c`, calls the stop callback. -/
def runCallsStop : List Handler → Chain T U → Bool
  | [], _ => false
  | handler :: rest, c =>
    handler.callsStop c ||
      match handler.call c with
      | .ok (c', none) => if c'.forcedStop then false else runCallsStop rest c'
      | _ => false

/-- A handler that calls `GetContext` `n` times in a row and goes on as
`next` says from the values it read, first read first. -/
def getContextTimes : Nat → (List GoVal → Handler) → Handler
  | 0, next => next []
  | n + 1, next => .getContext fun v => getContextTimes n fun vs => next (v :: vs)

/-- A handler that calls `GetResult` `n` times in a row and goes on as
`next` says from the values it read, first read first. -/
def getResultTimes : Nat → (List GoVal → Handler) → Handler
  | 0, next => next []
  | n + 1, next => .getResult fun v => getResultTimes n fun vs => next (v :: vs)

/-! ## Error kinds and messages -/

/-- The method `Error` of the three error types: the text of an
`errors.New` or `fmt.Errorf` value, and for a joined error the texts of the
errors it joins, one on each line. -/
def GoError.Error : GoError → String
  | .errorString _ s => s
  | .formatted s => s
  | .join a b => a.Error ++ "\n" ++ b.Error

/-- The five kinds of failure of the update methods. -/
inductive ErrorKind where
  | TargetUndefined | TargetNotStruct | FieldNotFound | FieldNotMutable
  | IncompatibleValueType
  deriving DecidableEq, Repr

/-- The package variable that `UpdateContext` returns, alone or joined with
a detail, for each kind of failure. -/
def ErrorKind.ofContext : ErrorKind → GoError
  | .TargetUndefined => ErrContextIsUndefined
  | .TargetNotStruct => ErrContextShouldBeStruct
  | .FieldNotFound => ErrStructFieldNotExported
  | .FieldNotMutable => ErrStructFieldCannotBeChanged
  | .IncompatibleValueType => ErrIncompatibleValueType

/-- The package variable that `UpdateResult` returns, alone or joined with
a detail, for each kind of failure. -/
def ErrorKind.ofResult : ErrorKind → GoError
  | .TargetUndefined => ErrResultIsUndefined
  | .TargetNotStruct => ErrResultShouldBeStruct
  | .FieldNotFound => ErrStructFieldNotExported
  | .FieldNotMutable => ErrStructFieldCannotBeChanged
  | .IncompatibleValueType => ErrIncompatibleValueType

/-! ## The types of the test suite -/

/-- The struct type `ChainContext` of `main_test.go`. -/
def ChainContext : GoType :=
  .named "gochain" "ChainContext"
    (.struct (.cons "FirstName" true false .string
      (.cons "LastName" true false .string .nil)))

/-- The struct type `ChainResult` of `main_test.go`. -/
def ChainResult : GoType :=
  .named "gochain" "ChainResult" (.struct (.cons "Value" true false .int .nil))

/-- An example struct type with an unexported field:
`type Account struct { Owner string; balance int64 }`. -/
def Account : GoType :=
  .named "bank" "Account"
    (.struct (.cons "Owner" true false .string (.cons "balance" false false .int64 .nil)))

/-- An example struct type that is embedded in others:
`type Address struct { City string }`. -/
def Address : GoType :=
  .named "geo" "Address" (.struct (.cons "City" true false .string .nil))

/-- An example struct type with an embedded struct:
`type Person struct { Name string; Address }`. -/
def Person : GoType :=
  .named "geo" "Person"
    (.struct (.cons "Name" true false .string (.cons "Address" true true Address .nil)))

/-- An example struct type with a struct embedded by pointer:
`type Visitor struct { Name string; *Address }`. -/
def Visitor : GoType :=
  .named "geo" "Visitor"
    (.struct (.cons "Name" true false .string
      (.cons "Address" true true (.pointer Address) .nil)))

/-- A Go string as a value of type `any`. -/
def anyString (s : String) : GoAny := some ⟨.string, .string s⟩

/-- A Go `int` as a value of type `any`. -/
def anyInt (i : Int) : GoAny := some ⟨.int, .int i⟩

/-- The error `unknownError` of `main_test.go`, an `errors.New` value of
its own. -/
def unknownError : GoError := .errorString 100 "unknown error"

/-- The handler of the tests that sets `FirstName` to `"John"` and returns
nil. -/
def setFirstName : Handler :=
  .updateContext "FirstName" (anyString "John") fun _ => .ret none

/-- The handler of the tests that sets `LastName` to `"Doe"` and returns
nil. -/
def setLastName : Handler :=
  .updateContext "LastName" (anyString "Doe") fun _ => .ret none

/-- The handler of the tests that returns `unknownError`. -/
def returnUnknownError : Handler := .ret (some unknownError)

/-- The handler of the tests that calls `stop()` and returns nil. -/
def callStop : Handler := .stop (.ret none)

/-- The handler of the tests that returns `chain.UpdateResult("Value", -100)`. -/
def setValue : Handler :=
  .updateResult "Value" (anyInt (-100)) fun err => .ret err

/-- A handler that calls `stop()`, then sets `LastName`, then returns nil. -/
def stopThenSetLastName : Handler :=
  .stop (.updateContext "LastName" (anyString "Doe") fun _ => .ret none)

/-- A handler that sets `LastName`, calls `stop()` and returns
`unknownError`. -/
def setLastNameStopAndFail : Handler :=
  .updateContext "LastName" (anyString "Doe") fun _ => .stop (.ret (some unknownError))

/-! ## Field lookup -/

theorem find_index_ge (name : String) :
    ∀ (fs : FieldList) (i : Nat) (f : StructField),
      fs.find name i = some f → i ≤ f.index ∧ f.index < i + fs.length
  | .nil, _, _, h => by simp [FieldList.find] at h
  | .cons n e _ t rest, i, f, h => by
    simp only [FieldList.find] at h
    split at h
    · simp only [Option.some.injEq] at h
      subst h
      simp [FieldList.length]
    · have := find_index_ge name rest (i + 1) f h
      simp only [FieldList.length]
      omega

theorem find_index_lt (name : String) (fs : FieldList) (f : StructField)
    (h : fs.find name 0 = some f) : f.index < fs.length := by
  have := (find_index_ge name fs 0 f h).2
  omega

/-! ## The search for a promoted field -/

theorem embedDepth_Elem : ∀ t : GoType, t.Kind = .Pointer → t.Elem.embedDepth = t.embedDepth
  | .pointer e, _ => by simp [GoType.Elem, GoType.embedDepth]
  | .named _ _ u, h => by
    simp only [GoType.Kind] at h
    simp [GoType.Elem, GoType.embedDepth, embedDepth_Elem u h]
  | .bool, h | .int, h | .int8, h | .int16, h | .int32, h | .int64, h
  | .uint, h | .uint8, h | .uint16, h | .uint32, h | .uint64, h
  | .float32, h | .float64, h | .string, h
  | .slice _, h | .map _ _, h | .iface _, h | .struct _, h => by simp [GoType.Kind] at h

theorem fields_embedDepth :
    ∀ t : GoType, t.fields.embedDepth + 1 ≤ t.embedDepth ∨ t.fields = .nil
  | .struct fs => by simp [GoType.fields, GoType.embedDepth]
  | .named _ _ u => by
    simpa [GoType.fields, GoType.embedDepth] using fields_embedDepth u
  | .bool | .int | .int8 | .int16 | .int32 | .int64
  | .uint | .uint8 | .uint16 | .uint32 | .uint64
  | .float32 | .float64 | .string
  | .slice _ | .map _ _ | .iface _ | .pointer _ => by simp [GoType.fields]

/-- The structs that the innermost loop queues are embedded less deep than
the struct it scans. -/
theorem scanFields_next_depth (name : String) (scan : fieldScan)
    (count : List (GoType × Nat)) (n : Nat) :
    ∀ (fs : FieldList) (i : Nat) (st st' : scanState),
      (fs.embedDepth + 1 ≤ n ∨ fs = .nil) →
      (∀ s ∈ st.next, s.typ.embedDepth < n) →
      scanFields name scan count fs i st = some st' →
      ∀ s ∈ st'.next, s.typ.embedDepth < n
  | .nil, _, st, st', _, hst, h => by
    simp only [scanFields, Option.some.injEq] at h
    subst h
    exact hst
  | .cons fname exported embedded ftyp rest, i, st, st', hfs, hst, h => by
    have hfs' : (FieldList.cons fname exported embedded ftyp rest).embedDepth + 1 ≤ n := by
      rcases hfs with hfs | hfs
      · exact hfs
      · cases hfs
    simp only [FieldList.embedDepth] at hfs'
    have hrest : rest.embedDepth + 1 ≤ n ∨ rest = .nil :=
      Or.inl (by have := le_max_right (if embedded = true then ftyp.embedDepth else 0)
                    rest.embedDepth; omega)
    have hfield : embedded = true → ftyp.embedDepth < n := by
      intro he
      subst he
      have := le_max_left (if true = true then ftyp.embedDepth else 0) rest.embedDepth
      simp only [if_true] at this hfs'
      omega
    by_cases hname : fname = name
    · rw [scanFields, if_pos hname] at h
      by_cases hc : countOf count scan.typ > 1 ∨ st.result.isSome = true
      · rw [if_pos hc] at h
        cases h
      · rw [if_neg hc] at h
        exact scanFields_next_depth name scan count n rest (i + 1)
          { st with result := some (scan.index, ⟨i, fname, exported, ftyp⟩) } st' hrest hst h
    · rw [scanFields, if_neg hname] at h
      dsimp only at h
      generalize hnt : (if ftyp.Kind = Kind.Pointer then ftyp.Elem else ftyp) = ntyp at h
      by_cases hq : st.result.isSome = true ∨ embedded = false ∨ ntyp.Kind ≠ .Struct
      · rw [if_pos hq] at h
        exact scanFields_next_depth name scan count n rest (i + 1) st st' hrest hst h
      · rw [if_neg hq] at h
        have hemb : embedded = true := by
          cases embedded
          · exact absurd (Or.inr (Or.inl rfl)) hq
          · rfl
        have hdepth : ntyp.embedDepth < n := by
          rw [← hnt]
          split
          · rename_i hk
            rw [embedDepth_Elem ftyp hk]
            exact hfield hemb
          · exact hfield hemb
        by_cases hcnt : countOf st.nextCount ntyp > 0
        · rw [if_pos hcnt] at h
          exact scanFields_next_depth name scan count n rest (i + 1)
            { st with nextCount := (ntyp, 2) :: st.nextCount } st' hrest hst h
        · rw [if_neg hcnt] at h
          refine scanFields_next_depth name scan count n rest (i + 1)
            { st with
              nextCount := (ntyp, if countOf count scan.typ > 1 then 2 else 1) :: st.nextCount
              next := st.next ++ [⟨ntyp, scan.index ++ [i]⟩] } st' hrest ?_ h
          intro s hs
          simp only [List.mem_append, List.mem_singleton] at hs
          rcases hs with hs | hs
          · exact hst s hs
          · subst hs
            exact hdepth

/-- The structs that a level queues are embedded less deep than the
structs of the level. -/
theorem scanLevel_next_depth (name : String) (count : List (GoType × Nat)) (n : Nat) :
    ∀ (scans : List fieldScan) (st st' : scanState),
      (∀ s ∈ scans, s.typ.embedDepth ≤ n) →
      (∀ s ∈ st.next, s.typ.embedDepth < n) →
      scanLevel name count scans st = some st' →
      ∀ s ∈ st'.next, s.typ.embedDepth < n := by
  intro scans
  induction scans with
  | nil =>
    intro st st' _ hst h
    simp only [scanLevel, Option.some.injEq] at h
    subst h
    exact hst
  | cons scan more ih =>
    intro st st' hscans hst h
    have hmore : ∀ s ∈ more, s.typ.embedDepth ≤ n :=
      fun s hs => hscans s (List.mem_cons_of_mem _ hs)
    rw [scanLevel] at h
    by_cases hv : scan.typ ∈ st.visited
    · rw [if_pos hv] at h
      exact ih st st' hmore hst h
    · rw [if_neg hv] at h
      cases h1 : scanFields name scan count scan.typ.fields 0
          { st with visited := scan.typ :: st.visited } with
      | none => rw [h1] at h; cases h
      | some st1 =>
        rw [h1] at h
        have hscan : scan.typ.embedDepth ≤ n := hscans scan (List.mem_cons_self _ _)
        have hfs : scan.typ.fields.embedDepth + 1 ≤ n ∨ scan.typ.fields = .nil := by
          rcases fields_embedDepth scan.typ with hd | hd
          · exact Or.inl (by omega)
          · exact Or.inr hd
        exact ih st1 st' hmore
          (scanFields_next_depth name scan count n _ 0
            { st with visited := scan.typ :: st.visited } st1 hfs hst h1) h

/-- More levels than the structs to scan are deep change nothing. -/
theorem scanLevels_fuel (name : String) :
    ∀ (fuel k : Nat) (next : List fieldScan) (nextCount : List (GoType × Nat))
      (visited : List GoType),
      (∀ s ∈ next, s.typ.embedDepth < fuel) →
      scanLevels name (fuel + k) next nextCount visited
        = scanLevels name fuel next nextCount visited := by
  intro fuel
  induction fuel with
  | zero =>
    intro k next nextCount visited hnext
    cases next with
    | nil => cases k <;> simp [scanLevels]
    | cons s more => exact absurd (hnext s (List.mem_cons_self _ _)) (Nat.not_lt_zero _)
  | succ fuel ih =>
    intro k next nextCount visited hnext
    have hk : fuel + 1 + k = (fuel + k) + 1 := by omega
    rw [hk]
    cases next with
    | nil => simp [scanLevels]
    | cons s more =>
      rw [scanLevels, scanLevels]
      cases hl : scanLevel name nextCount (s :: more) ⟨none, [], [], visited⟩ with
      | none => rfl
      | some st =>
        dsimp only
        cases hr : st.result with
        | some r => rfl
        | none =>
          dsimp only
          apply ih
          refine scanLevel_next_depth name nextCount fuel (s :: more) _ st ?_ ?_ hl
          · intro x hx
            have := hnext x hx
            omega
          · intro x hx
            cases hx

/-- The number of levels that `FieldByNameFunc` allows is enough: with more
levels the search ends with the same result. -/
theorem FieldByNameFunc_fuel (t : GoType) (name : String) (k : Nat) :
    scanLevels name (t.embedDepth + 1 + k) [⟨t, []⟩] [] [] = t.FieldByNameFunc name := by
  unfold GoType.FieldByNameFunc
  apply scanLevels_fuel
  intro s hs
  simp only [List.mem_singleton] at hs
  subst hs
  exact Nat.lt_succ_self _

/-! ## Names that no field has -/

theorem hasFieldNamed_Elem (name : String) :
    ∀ t : GoType, t.Kind = .Pointer → t.Elem.hasFieldNamed name = t.hasFieldNamed name
  | .pointer e, _ => by simp [GoType.Elem, GoType.hasFieldNamed]
  | .named _ _ u, h => by
    simp only [GoType.Kind] at h
    simp [GoType.Elem, GoType.hasFieldNamed, hasFieldNamed_Elem name u h]
  | .bool, h | .int, h | .int8, h | .int16, h | .int32, h | .int64, h
  | .uint, h | .uint8, h | .uint16, h | .uint32, h | .uint64, h
  | .float32, h | .float64, h | .string, h
  | .slice _, h | .map _ _, h | .iface _, h | .struct _, h => by simp [GoType.Kind] at h

theorem fields_hasFieldNamed (name : String) :
    ∀ t : GoType, t.hasFieldNamed name = false → t.fields.hasFieldNamed name = false
  | .struct fs, h => by simpa [GoType.hasFieldNamed, GoType.fields] using h
  | .named _ _ u, h => by
    simp only [GoType.hasFieldNamed] at h
    simpa [GoType.fields] using fields_hasFieldNamed name u h
  | .bool, _ | .int, _ | .int8, _ | .int16, _ | .int32, _ | .int64, _
  | .uint, _ | .uint8, _ | .uint16, _ | .uint32, _ | .uint64, _
  | .float32, _ | .float64, _ | .string, _
  | .slice _, _ | .map _ _, _ | .iface _, _ | .pointer _, _ => by
    simp [GoType.fields, FieldList.hasFieldNamed]

theorem find_none_of_absent (name : String) :
    ∀ (fs : FieldList) (i : Nat), fs.hasFieldNamed name = false → fs.find name i = none
  | .nil, _, _ => by simp [FieldList.find]
  | .cons n e emb t rest, i, h => by
    simp only [FieldList.hasFieldNamed, Bool.or_eq_false_iff, decide_eq_false_iff_not] at h
    simp only [FieldList.find, h.1.1, if_false]
    exact find_none_of_absent name rest (i + 1) h.2

/-- Over fields none of which, at any depth, is called `name`, the
innermost loop finds no match and queues only structs without such a
field. -/
theorem scanFields_absent (name : String) (scan : fieldScan) (count : List (GoType × Nat)) :
    ∀ (fs : FieldList) (i : Nat) (st : scanState),
      fs.hasFieldNamed name = false → st.result = none →
      (∀ s ∈ st.next, s.typ.hasFieldNamed name = false) →
      ∃ st', scanFields name scan count fs i st = some st' ∧ st'.result = none ∧
        ∀ s ∈ st'.next, s.typ.hasFieldNamed name = false
  | .nil, _, st, _, hres, hst => ⟨st, by simp [scanFields], hres, hst⟩
  | .cons fname exported embedded ftyp rest, i, st, hfs, hres, hst => by
    simp only [FieldList.hasFieldNamed, Bool.or_eq_false_iff, decide_eq_false_iff_not,
      Bool.and_eq_false_imp] at hfs
    obtain ⟨⟨hname, hemb⟩, hrest⟩ := hfs
    rw [scanFields, if_neg hname]
    dsimp only
    by_cases hq : st.result.isSome = true ∨ embedded = false ∨
        (if ftyp.Kind = Kind.Pointer then ftyp.Elem else ftyp).Kind ≠ .Struct
    · rw [if_pos hq]
      exact scanFields_absent name scan count rest (i + 1) st hrest hres hst
    · rw [if_neg hq]
      have he : embedded = true := by
        cases embedded
        · exact absurd (Or.inr (Or.inl rfl)) hq
        · rfl
      have habs : (if ftyp.Kind = Kind.Pointer then ftyp.Elem else ftyp).hasFieldNamed name
          = false := by
        split
        · rename_i hk
          rw [hasFieldNamed_Elem name ftyp hk]
          exact hemb he
        · exact hemb he
      by_cases hcnt : countOf st.nextCount
          (if ftyp.Kind = Kind.Pointer then ftyp.Elem else ftyp) > 0
      · rw [if_pos hcnt]
        exact scanFields_absent name scan count rest (i + 1) _ hrest hres hst
      · rw [if_neg hcnt]
        refine scanFields_absent name scan count rest (i + 1) _ hrest hres ?_
        intro s hs
        simp only [List.mem_append, List.mem_singleton] at hs
        rcases hs with hs | hs
        · exact hst s hs
        · subst hs
          exact habs

theorem scanLevel_absent (name : String) (count : List (GoType × Nat)) :
    ∀ (scans : List fieldScan) (st : scanState),
      (∀ s ∈ scans, s.typ.hasFieldNamed name = false) → st.result = none →
      (∀ s ∈ st.next, s.typ.hasFieldNamed name = false) →
      ∃ st', scanLevel name count scans st = some st' ∧ st'.result = none ∧
        ∀ s ∈ st'.next, s.typ.hasFieldNamed name = false := by
  intro scans
  induction scans with
  | nil => intro st _ hres hst; exact ⟨st, by simp [scanLevel], hres, hst⟩
  | cons scan more ih =>
    intro st hscans hres hst
    have hmore : ∀ s ∈ more, s.typ.hasFieldNamed name = false :=
      fun s hs => hscans s (List.mem_cons_of_mem _ hs)
    rw [scanLevel]
    by_cases hv : scan.typ ∈ st.visited
    · rw [if_pos hv]
      exact ih st hmore hres hst
    · rw [if_neg hv]
      obtain ⟨st1, h1, hres1, hst1⟩ := scanFields_absent name scan count scan.typ.fields 0
        { st with visited := scan.typ :: st.visited }
        (fields_hasFieldNamed name scan.typ (hscans scan (List.mem_cons_self _ _))) hres hst
      rw [h1]
      exact ih st1 hmore hres1 hst1

theorem scanLevels_absent (name : String) :
    ∀ (fuel : Nat) (next : List fieldScan) (nextCount : List (GoType × Nat))
      (visited : List GoType),
      (∀ s ∈ next, s.typ.hasFieldNamed name = false) →
      scanLevels name fuel next nextCount visited = none := by
  intro fuel
  induction fuel with
  | zero => intro next nextCount visited _; rfl
  | succ fuel ih =>
    intro next nextCount visited hnext
    cases next with
    | nil => simp [scanLevels]
    | cons s more =>
      obtain ⟨st, hl, hres, hst⟩ := scanLevel_absent name nextCount (s :: more)
        ⟨none, [], [], visited⟩ hnext rfl (by intro x hx; cases hx)
      rw [scanLevels, hl]
      dsimp only
      rw [hres]
      exact ih st.next st.nextCount st.visited hst

/-- A name that no field has, neither in the struct nor in a struct embedded
in it at any depth, is not found. -/
theorem FieldByName_none_of_absent (t : GoType) (name : String)
    (h : t.hasFieldNamed name = false) : t.FieldByName name = none := by
  unfold GoType.FieldByName
  split
  · rfl
  · rw [find_none_of_absent name t.fields 0 (fields_hasFieldNamed name t h)]
    dsimp only
    split
    · unfold GoType.FieldByNameFunc
      apply scanLevels_absent
      intro s hs
      simp only [List.mem_singleton] at hs
      subst hs
      exact h
    · rfl

/-! ## Matching errors -/

theorem Is_self (e : GoError) : errors.Is e e = true := by
  cases e <;> simp [errors.Is]

theorem Is_Join_left (a b : GoError) : errors.Is (errors.Join a b) a = true := by
  simp [errors.Is, errors.Join, Is_self]

theorem Is_Join_other (i j : Nat) (s t m : String) (h : i ≠ j) :
    errors.Is (errors.Join (.errorString i s) (.formatted m)) (.errorString j t) = false := by
  simp [errors.Is, errors.Join, h]

/-! ## Struct values -/

theorem field_setField_self (T : GoType) (v new : GoVal) (i : Nat) (hT : T.Kind = .Struct)
    (hv : v.hasShape T = true) (hi : i < T.fields.length) :
    (v.setField i new).field i = some new := by
  cases v <;> simp_all [GoVal.hasShape, GoVal.setField, GoVal.field]

theorem field_setField_other (v new : GoVal) (i j : Nat) (hij : j ≠ i) :
    (v.setField i new).field j = v.field j := by
  cases v <;> simp [GoVal.setField, GoVal.field]
  rw [List.getElem?_set_ne (Ne.symm hij)]

theorem hasShape_setField (T : GoType) (v new : GoVal) (i : Nat)
    (hv : v.hasShape T = true) : (v.setField i new).hasShape T = true := by
  cases v <;> simp_all [GoVal.hasShape, GoVal.setField]
  split at hv <;> simp_all

theorem zeros_length : ∀ fs : FieldList, fs.zeros.length = fs.length
  | .nil => by simp [FieldList.zeros, FieldList.length]
  | .cons _ _ _ _ rest => by simp [FieldList.zeros, FieldList.length, zeros_length rest]

theorem zero_eq_struct : ∀ T : GoType, T.Kind = .Struct → T.zero = .struct T.fields.zeros
  | .struct fs, _ => by simp [GoType.zero, GoType.fields]
  | .named _ _ u, h => by
    simp only [GoType.Kind] at h
    simp [GoType.zero, GoType.fields, zero_eq_struct u h]
  | .bool, h | .int, h | .int8, h | .int16, h | .int32, h | .int64, h
  | .uint, h | .uint8, h | .uint16, h | .uint32, h | .uint64, h
  | .float32, h | .float64, h | .string, h
  | .pointer _, h | .slice _, h | .map _ _, h | .iface _, h => by simp [GoType.Kind] at h

/-- The zero value of a type has the shape of the type. -/
theorem hasShape_zero (T : GoType) : T.zero.hasShape T = true := by
  by_cases hT : T.Kind = .Struct
  · rw [zero_eq_struct T hT]
    simp [GoVal.hasShape, hT, zeros_length]
  · unfold GoVal.hasShape
    split <;> simp_all

/-! ## The outcomes of UpdateContext and UpdateResult, case by case -/

/-- A declared field is found by name where it stands. -/
theorem FieldByName_declared (t : GoType) (name : String) (f : StructField)
    (hn : name ≠ "") (hf : t.fields.find name 0 = some f) :
    t.FieldByName name = some ([], f) := by
  simp [GoType.FieldByName, hn, hf]

section update
variable (c : Chain T U) (name : String) (value : GoAny)

theorem UpdateContext_notStruct (hT : T.Kind ≠ .Struct) :
    c.UpdateContext name value = .ok (c, some ErrContextShouldBeStruct) := by
  simp [Chain.UpdateContext, reflect.ValueOfAddr, reflect.Value.Kind, reflect.Value.Elem, hT]

theorem UpdateResult_notStruct (hU : U.Kind ≠ .Struct) :
    c.UpdateResult name value = .ok (c, some ErrResultShouldBeStruct) := by
  simp [Chain.UpdateResult, reflect.ValueOfAddr, reflect.Value.Kind, reflect.Value.Elem, hU]

theorem UpdateContext_notFound (hT : T.Kind = .Struct) (hf : T.FieldByName name = none) :
    c.UpdateContext name value = .ok (c, some (errors.Join ErrStructFieldNotExported
      (fmt.Errorf "the " " field does not exist" name))) := by
  simp [Chain.UpdateContext, reflect.ValueOfAddr, reflect.Value.Kind, reflect.Value.Elem,
    reflect.Value.FieldByName, reflect.Value.IsValid, hT, hf]

theorem UpdateResult_notFound (hU : U.Kind = .Struct) (hf : U.FieldByName name = none) :
    c.UpdateResult name value = .ok (c, some ErrStructFieldNotExported) := by
  simp [Chain.UpdateResult, reflect.ValueOfAddr, reflect.Value.Kind, reflect.Value.Elem,
    reflect.Value.FieldByName, reflect.Value.IsValid, hU, hf]

theorem UpdateContext_nilEmbedded (hT : T.Kind = .Struct) (outer : List Nat) (f : StructField)
    (hf : T.FieldByName name = some (outer, f)) (hp : c.ctx.nilEmbedded outer = true) :
    c.UpdateContext name value
      = .error "reflect: indirection through nil pointer to embedded struct" := by
  simp [Chain.UpdateContext, reflect.ValueOfAddr, reflect.Value.Kind, reflect.Value.Elem,
    reflect.Value.FieldByName, reflect.Value.FieldByIndex, reflect.Value.IsValid,
    reflect.Value.CanSet, reflect.ValueOf, reflect.Value.Type, reflect.Value.Set, hT, hf, hp]

theorem UpdateResult_nilEmbedded (hU : U.Kind = .Struct) (outer : List Nat) (f : StructField)
    (hf : U.FieldByName name = some (outer, f)) (hp : c.result.nilEmbedded outer = true) :
    c.UpdateResult name value
      = .error "reflect: indirection through nil pointer to embedded struct" := by
  simp [Chain.UpdateResult, reflect.ValueOfAddr, reflect.Value.Kind, reflect.Value.Elem,
    reflect.Value.FieldByName, reflect.Value.FieldByIndex, reflect.Value.IsValid,
    reflect.Value.CanSet, reflect.ValueOf, reflect.Value.Type, reflect.Value.Set, hU, hf, hp]

theorem UpdateContext_notSettable_at (hT : T.Kind = .Struct) (outer : List Nat)
    (f : StructField) (hf : T.FieldByName name = some (outer, f))
    (hp : c.ctx.nilEmbedded outer = false) (he : f.exported = false) :
    c.UpdateContext name value = .ok (c, some (errors.Join ErrStructFieldCannotBeChanged
      (fmt.Errorf "the " " field cannot be changed" name))) := by
  simp [Chain.UpdateContext, reflect.ValueOfAddr, reflect.Value.Kind, reflect.Value.Elem,
    reflect.Value.FieldByName, reflect.Value.FieldByIndex, reflect.Value.IsValid,
    reflect.Value.CanSet, reflect.ValueOf, reflect.Value.Type, reflect.Value.Set, hT, hf, hp, he]

theorem UpdateResult_notSettable_at (hU : U.Kind = .Struct) (outer : List Nat)
    (f : StructField) (hf : U.FieldByName name = some (outer, f))
    (hp : c.result.nilEmbedded outer = false) (he : f.exported = false) :
    c.UpdateResult name value = .ok (c, some (errors.Join ErrStructFieldCannotBeChanged
      (fmt.Errorf "the " " field cannot be changed" name))) := by
  simp [Chain.UpdateResult, reflect.ValueOfAddr, reflect.Value.Kind, reflect.Value.Elem,
    reflect.Value.FieldByName, reflect.Value.FieldByIndex, reflect.Value.IsValid,
    reflect.Value.CanSet, reflect.ValueOf, reflect.Value.Type, reflect.Value.Set, hU, hf, hp, he]

theorem UpdateContext_nil_at (hT : T.Kind = .Struct) (outer : List Nat) (f : StructField)
    (hf : T.FieldByName name = some (outer, f))
    (hp : c.ctx.nilEmbedded outer = false) (he : f.exported = true) :
    c.UpdateContext name none
      = .error "reflect: call of reflect.Value.Type on zero Value" := by
  simp [Chain.UpdateContext, reflect.ValueOfAddr, reflect.Value.Kind, reflect.Value.Elem,
    reflect.Value.FieldByName, reflect.Value.FieldByIndex, reflect.Value.IsValid,
    reflect.Value.CanSet, reflect.ValueOf, reflect.Value.Type, reflect.Value.Set, hT, hf, hp, he]

theorem UpdateResult_nil_at (hU : U.Kind = .Struct) (outer : List Nat) (f : StructField)
    (hf : U.FieldByName name = some (outer, f))
    (hp : c.result.nilEmbedded outer = false) (he : f.exported = true) :
    c.UpdateResult name none
      = .error "reflect: call of reflect.Value.Type on zero Value" := by
  simp [Chain.UpdateResult, reflect.ValueOfAddr, reflect.Value.Kind, reflect.Value.Elem,
    reflect.Value.FieldByName, reflect.Value.FieldByIndex, reflect.Value.IsValid,
    reflect.Value.CanSet, reflect.ValueOf, reflect.Value.Type, reflect.Value.Set, hU, hf, hp, he]

theorem UpdateContext_mismatch_at (hT : T.Kind = .Struct) (outer : List Nat) (f : StructField)
    (hf : T.FieldByName name = some (outer, f))
    (hp : c.ctx.nilEmbedded outer = false) (he : f.exported = true) (v : Dyn)
    (hv : v.typ ≠ f.typ) :
    c.UpdateContext name (some v) = .ok (c, some (errors.Join ErrIncompatibleValueType
      (fmt.Errorf "The value type is incompatible with the " " field" name))) := by
  have hv' : ¬ f.typ = v.typ := fun h => hv h.symm
  simp [Chain.UpdateContext, reflect.ValueOfAddr, reflect.Value.Kind, reflect.Value.Elem,
    reflect.Value.FieldByName, reflect.Value.FieldByIndex, reflect.Value.IsValid,
    reflect.Value.CanSet, reflect.ValueOf, reflect.Value.Type, reflect.Value.Set, hT, hf, hp, he, hv']

theorem UpdateResult_mismatch_at (hU : U.Kind = .Struct) (outer : List Nat) (f : StructField)
    (hf : U.FieldByName name = some (outer, f))
    (hp : c.result.nilEmbedded outer = false) (he : f.exported = true) (v : Dyn)
    (hv : v.typ ≠ f.typ) :
    c.UpdateResult name (some v) = .ok (c, some (errors.Join ErrIncompatibleValueType
      (fmt.Errorf "The value type is incompatible with the " " field" name))) := by
  have hv' : ¬ f.typ = v.typ := fun h => hv h.symm
  simp [Chain.UpdateResult, reflect.ValueOfAddr, reflect.Value.Kind, reflect.Value.Elem,
    reflect.Value.FieldByName, reflect.Value.FieldByIndex, reflect.Value.IsValid,
    reflect.Value.CanSet, reflect.ValueOf, reflect.Value.Type, reflect.Value.Set, hU, hf, hp, he, hv']

theorem UpdateContext_assign_at (hT : T.Kind = .Struct) (outer : List Nat) (f : StructField)
    (hf : T.FieldByName name = some (outer, f))
    (hp : c.ctx.nilEmbedded outer = false) (he : f.exported = true) (v : Dyn)
    (hv : v.typ = f.typ) :
    c.UpdateContext name (some v)
      = .ok ({ c with ctx := c.ctx.setPath outer f.index v.val }, none) := by
  simp [Chain.UpdateContext, reflect.ValueOfAddr, reflect.Value.Kind, reflect.Value.Elem,
    reflect.Value.FieldByName, reflect.Value.FieldByIndex, reflect.Value.IsValid,
    reflect.Value.CanSet, reflect.ValueOf, reflect.Value.Type, reflect.Value.Set, hT, hf, hp, he, hv]

theorem UpdateResult_assign_at (hU : U.Kind = .Struct) (outer : List Nat) (f : StructField)
    (hf : U.FieldByName name = some (outer, f))
    (hp : c.result.nilEmbedded outer = false) (he : f.exported = true) (v : Dyn)
    (hv : v.typ = f.typ) :
    c.UpdateResult name (some v)
      = .ok ({ c with result := c.result.setPath outer f.index v.val }, none) := by
  simp [Chain.UpdateResult, reflect.ValueOfAddr, reflect.Value.Kind, reflect.Value.Elem,
    reflect.Value.FieldByName, reflect.Value.FieldByIndex, reflect.Value.IsValid,
    reflect.Value.CanSet, reflect.ValueOf, reflect.Value.Type, reflect.Value.Set, hU, hf, hp, he, hv]

theorem UpdateContext_notSettable (hT : T.Kind = .Struct) (hn : name ≠ "") (f : StructField)
    (hf : T.fields.find name 0 = some f) (he : f.exported = false) :
    c.UpdateContext name value = .ok (c, some (errors.Join ErrStructFieldCannotBeChanged
      (fmt.Errorf "the " " field cannot be changed" name))) :=
  UpdateContext_notSettable_at c name value hT [] f (FieldByName_declared _ name f hn hf) rfl he

theorem UpdateContext_nil (hT : T.Kind = .Struct) (hn : name ≠ "") (f : StructField)
    (hf : T.fields.find name 0 = some f) (he : f.exported = true) :
    c.UpdateContext name none
      = .error "reflect: call of reflect.Value.Type on zero Value" :=
  UpdateContext_nil_at c name hT [] f (FieldByName_declared _ name f hn hf) rfl he

theorem UpdateContext_mismatch (hT : T.Kind = .Struct) (hn : name ≠ "") (f : StructField)
    (hf : T.fields.find name 0 = some f) (he : f.exported = true) (v : Dyn)
    (hv : v.typ ≠ f.typ) :
    c.UpdateContext name (some v) = .ok (c, some (errors.Join ErrIncompatibleValueType
      (fmt.Errorf "The value type is incompatible with the " " field" name))) :=
  UpdateContext_mismatch_at c name hT [] f (FieldByName_declared _ name f hn hf) rfl he v hv

theorem UpdateContext_assign (hT : T.Kind = .Struct) (hn : name ≠ "") (f : StructField)
    (hf : T.fields.find name 0 = some f) (he : f.exported = true) (v : Dyn)
    (hv : v.typ = f.typ) :
    c.UpdateContext name (some v)
      = .ok ({ c with ctx := c.ctx.setField f.index v.val }, none) :=
  UpdateContext_assign_at c name hT [] f (FieldByName_declared _ name f hn hf) rfl he v hv

theorem UpdateResult_notSettable (hU : U.Kind = .Struct) (hn : name ≠ "") (f : StructField)
    (hf : U.fields.find name 0 = some f) (he : f.exported = false) :
    c.UpdateResult name value = .ok (c, some (errors.Join ErrStructFieldCannotBeChanged
      (fmt.Errorf "the " " field cannot be changed" name))) :=
  UpdateResult_notSettable_at c name value hU [] f (FieldByName_declared _ name f hn hf) rfl he

theorem UpdateResult_nil (hU : U.Kind = .Struct) (hn : name ≠ "") (f : StructField)
    (hf : U.fields.find name 0 = some f) (he : f.exported = true) :
    c.UpdateResult name none
      = .error "reflect: call of reflect.Value.Type on zero Value" :=
  UpdateResult_nil_at c name hU [] f (FieldByName_declared _ name f hn hf) rfl he

theorem UpdateResult_mismatch (hU : U.Kind = .Struct) (hn : name ≠ "") (f : StructField)
    (hf : U.fields.find name 0 = some f) (he : f.exported = true) (v : Dyn)
    (hv : v.typ ≠ f.typ) :
    c.UpdateResult name (some v) = .ok (c, some (errors.Join ErrIncompatibleValueType
      (fmt.Errorf "The value type is incompatible with the " " field" name))) :=
  UpdateResult_mismatch_at c name hU [] f (FieldByName_declared _ name f hn hf) rfl he v hv

theorem UpdateResult_assign (hU : U.Kind = .Struct) (hn : name ≠ "") (f : StructField)
    (hf : U.fields.find name 0 = some f) (he : f.exported = true) (v : Dyn)
    (hv : v.typ = f.typ) :
    c.UpdateResult name (some v)
      = .ok ({ c with result := c.result.setField f.index v.val }, none) :=
  UpdateResult_assign_at c name hU [] f (FieldByName_declared _ name f hn hf) rfl he v hv

/-- An `UpdateContext` that returns either fails and leaves the chain as it
was, or succeeds and changes the ctx only. -/
theorem UpdateContext_cases (c' : Chain T U) (e : Option GoError)
    (h : c.UpdateContext name value = .ok (c', e)) :
    (c' = c ∧ e ≠ none) ∨ (∃ x, c' = { c with ctx := x } ∧ e = none) := by
  by_cases hT : T.Kind = .Struct
  · cases hf : T.FieldByName name with
    | none =>
      rw [UpdateContext_notFound c name value hT hf] at h
      simp only [Except.ok.injEq, Prod.mk.injEq] at h
      exact Or.inl ⟨h.1.symm, by simp [← h.2]⟩
    | some found =>
      obtain ⟨outer, f⟩ := found
      cases hp : c.ctx.nilEmbedded outer with
      | true => rw [UpdateContext_nilEmbedded c name value hT outer f hf hp] at h; cases h
      | false =>
        cases he : f.exported with
        | false =>
          rw [UpdateContext_notSettable_at c name value hT outer f hf hp he] at h
          simp only [Except.ok.injEq, Prod.mk.injEq] at h
          exact Or.inl ⟨h.1.symm, by simp [← h.2]⟩
        | true =>
          cases value with
          | none => rw [UpdateContext_nil_at c name hT outer f hf hp he] at h; cases h
          | some v =>
            by_cases hv : v.typ = f.typ
            · rw [UpdateContext_assign_at c name hT outer f hf hp he v hv] at h
              simp only [Except.ok.injEq, Prod.mk.injEq] at h
              exact Or.inr ⟨_, h.1.symm, h.2.symm⟩
            · rw [UpdateContext_mismatch_at c name hT outer f hf hp he v hv] at h
              simp only [Except.ok.injEq, Prod.mk.injEq] at h
              exact Or.inl ⟨h.1.symm, by simp [← h.2]⟩
  · rw [UpdateContext_notStruct c name value hT] at h
    simp only [Except.ok.injEq, Prod.mk.injEq] at h
    exact Or.inl ⟨h.1.symm, by simp [← h.2]⟩

/-- An `UpdateResult` that returns either fails and leaves the chain as it
was, or succeeds and changes the result only. -/
theorem UpdateResult_cases (c' : Chain T U) (e : Option GoError)
    (h : c.UpdateResult name value = .ok (c', e)) :
    (c' = c ∧ e ≠ none) ∨ (∃ x, c' = { c with result := x } ∧ e = none) := by
  by_cases hU : U.Kind = .Struct
  · cases hf : U.FieldByName name with
    | none =>
      rw [UpdateResult_notFound c name value hU hf] at h
      simp only [Except.ok.injEq, Prod.mk.injEq] at h
      exact Or.inl ⟨h.1.symm, by simp [← h.2]⟩
    | some found =>
      obtain ⟨outer, f⟩ := found
      cases hp : c.result.nilEmbedded outer with
      | true => rw [UpdateResult_nilEmbedded c name value hU outer f hf hp] at h; cases h
      | false =>
        cases he : f.exported with
        | false =>
          rw [UpdateResult_notSettable_at c name value hU outer f hf hp he] at h
          simp only [Except.ok.injEq, Prod.mk.injEq] at h
          exact Or.inl ⟨h.1.symm, by simp [← h.2]⟩
        | true =>
          cases value with
          | none => rw [UpdateResult_nil_at c name hU outer f hf hp he] at h; cases h
          | some v =>
            by_cases hv : v.typ = f.typ
            · rw [UpdateResult_assign_at c name hU outer f hf hp he v hv] at h
              simp only [Except.ok.injEq, Prod.mk.injEq] at h
              exact Or.inr ⟨_, h.1.symm, h.2.symm⟩
            · rw [UpdateResult_mismatch_at c name hU outer f hf hp he v hv] at h
              simp only [Except.ok.injEq, Prod.mk.injEq] at h
              exact Or.inl ⟨h.1.symm, by simp [← h.2]⟩
  · rw [UpdateResult_notStruct c name value hU] at h
    simp only [Except.ok.injEq, Prod.mk.injEq] at h
    exact Or.inl ⟨h.1.symm, by simp [← h.2]⟩

theorem UpdateContext_forcedStop (c' : Chain T U) (e : Option GoError)
    (h : c.UpdateContext name value = .ok (c', e)) : c'.forcedStop = c.forcedStop := by
  rcases UpdateContext_cases c name value c' e h with ⟨rfl, _⟩ | ⟨x, rfl, _⟩ <;> rfl

theorem UpdateResult_forcedStop (c' : Chain T U) (e : Option GoError)
    (h : c.UpdateResult name value = .ok (c', e)) : c'.forcedStop = c.forcedStop := by
  rcases UpdateResult_cases c name value c' e h with ⟨rfl, _⟩ | ⟨x, rfl, _⟩ <;> rfl

end update

/-! ## Handlers and the stop flag -/

/-- When a handler returns, the stop flag is set exactly when it was set
before the call or the handler called the stop callback. -/
theorem call_forcedStop (h : Handler) :
    ∀ (c c' : Chain T U) (e : Option GoError), h.call c = .ok (c', e) →
      c'.forcedStop = (c.forcedStop || h.callsStop c) := by
  induction h with
  | ret err =>
    intro c c' e hc
    simp only [Handler.call, Except.ok.injEq, Prod.mk.injEq] at hc
    simp [Handler.callsStop, ← hc.1]
  | stop next ih =>
    intro c c' e hc
    simp only [Handler.call] at hc
    have := ih _ _ _ hc
    simpa [Gochain.stop, Handler.callsStop] using this
  | add h next _ ih =>
    intro c c' e hc
    simp only [Handler.call] at hc
    have := ih _ _ _ hc
    simpa [Chain.Add, Handler.callsStop] using this
  | getContext next ih =>
    intro c c' e hc
    simp only [Handler.call] at hc
    simpa [Handler.callsStop] using ih _ _ _ _ hc
  | getResult next ih =>
    intro c c' e hc
    simp only [Handler.call] at hc
    simpa [Handler.callsStop] using ih _ _ _ _ hc
  | updateContext fieldName value next ih =>
    intro c c' e hc
    simp only [Handler.call] at hc
    cases hu : c.UpdateContext fieldName value with
    | error p => simp [hu] at hc
    | ok r =>
      obtain ⟨c1, e1⟩ := r
      simp only [hu] at hc
      have h1 := ih _ _ _ _ hc
      have h2 := UpdateContext_forcedStop c fieldName value c1 e1 hu
      simp [Handler.callsStop, hu, h1, h2]
  | updateResult fieldName value next ih =>
    intro c c' e hc
    simp only [Handler.call] at hc
    cases hu : c.UpdateResult fieldName value with
    | error p => simp [hu] at hc
    | ok r =>
      obtain ⟨c1, e1⟩ := r
      simp only [hu] at hc
      have h1 := ih _ _ _ _ hc
      have h2 := UpdateResult_forcedStop c fieldName value c1 e1 hu
      simp [Handler.callsStop, hu, h1, h2]

/-! ## Building a chain -/

theorem foldl_Add_handlers (hs : List Handler) (c : Chain T U) :
    (hs.foldl Chain.Add c).handlers = c.handlers ++ hs := by
  induction hs generalizing c with
  | nil => simp
  | cons h rest ih => simp [List.foldl, ih, Chain.Add]

theorem foldl_Add_forcedStop (hs : List Handler) (c : Chain T U) :
    (hs.foldl Chain.Add c).forcedStop = c.forcedStop := by
  induction hs generalizing c with
  | nil => simp
  | cons h rest ih => simp [List.foldl, ih, Chain.Add]

theorem foldl_Add_ctx (hs : List Handler) (c : Chain T U) :
    (hs.foldl Chain.Add c).ctx = c.ctx ∧ (hs.foldl Chain.Add c).result = c.result := by
  induction hs generalizing c with
  | nil => simp
  | cons h rest ih => simp [List.foldl, ih, Chain.Add]

theorem chainOf_handlers (hs : List Handler) : (chainOf T U hs).handlers = hs := by
  simp [chainOf, foldl_Add_handlers, NewChain]

theorem chainOf_forcedStop (hs : List Handler) : (chainOf T U hs).forcedStop = false := by
  simp [chainOf, foldl_Add_forcedStop, NewChain]

/-! ## The loop of Run -/

/-- Over handlers that all return nil without calling stop, from a chain
whose stop flag is unset, the loop calls each of them and goes on with the
remaining handlers; the stop flag is still unset. -/
theorem runLoop_quiet (quiet rest : List Handler) :
    ∀ (i : Nat) (c c1 : Chain T U) (log : List Nat),
      callAllQuiet quiet c = some c1 → c.forcedStop = false →
      c1.forcedStop = false ∧
      runLoop (quiet ++ rest) i c log
        = runLoop rest (i + quiet.length) c1 (log ++ List.range' i quiet.length) := by
  induction quiet with
  | nil =>
    intro i c c1 log hq hs
    simp only [callAllQuiet, Option.some.injEq] at hq
    subst hq
    simp [hs]
  | cons h quiet ih =>
    intro i c c1 log hq hs
    simp only [callAllQuiet] at hq
    cases hc : h.call c with
    | error p => simp [hc] at hq
    | ok r =>
      obtain ⟨c', e⟩ := r
      cases e with
      | some err => simp [hc] at hq
      | none =>
        simp only [hc] at hq
        cases hstop : h.callsStop c with
        | true => simp [hstop] at hq
        | false =>
          simp only [hstop, Bool.false_eq_true, if_false] at hq
          have hflag : c'.forcedStop = false := by
            rw [call_forcedStop h c c' none hc, hs, hstop]; rfl
          obtain ⟨h1, h2⟩ := ih (i + 1) c' c1 (log ++ [i]) hq hflag
          refine ⟨h1, ?_⟩
          have hlen : i + (quiet.length + 1) = i + 1 + quiet.length := by omega
          simp only [List.cons_append, runLoop, hc, hflag, Bool.false_eq_true, if_false,
            List.length_cons, List.range'_succ]
          show runLoop (quiet ++ rest) (i + 1) c' (log ++ [i]) = _
          rw [h2, hlen]
          simp

/-- Over handlers that all return nil without calling stop, calling them in
order gives the same chain. -/
theorem callInOrder_quiet (quiet rest : List Handler) :
    ∀ (c c1 : Chain T U), callAllQuiet quiet c = some c1 →
      callInOrder (quiet ++ rest) c = callInOrder rest c1 := by
  induction quiet with
  | nil =>
    intro c c1 hq
    simp only [callAllQuiet, Option.some.injEq] at hq
    subst hq
    simp
  | cons h quiet ih =>
    intro c c1 hq
    simp only [callAllQuiet] at hq
    cases hc : h.call c with
    | error p => simp [hc] at hq
    | ok r =>
      obtain ⟨c', e⟩ := r
      cases e with
      | some err => simp [hc] at hq
      | none =>
        simp only [hc] at hq
        cases hstop : h.callsStop c with
        | true => simp [hstop] at hq
        | false =>
          simp only [hstop, Bool.false_eq_true, if_false] at hq
          simp only [List.cons_append, callInOrder, hc]
          exact ih c' c1 hq

theorem range'_zero_snoc (n : Nat) : List.range' 0 n ++ [n] = List.range (n + 1) := by
  rw [List.range_eq_range', List.range'_concat]
  simp

/-- Run on a chain whose first handlers are quiet, up to the handler `h`
at which the loop ends. -/
theorem Run_quiet_then (quiet rest : List Handler) (h : Handler) (c1 : Chain T U)
    (hq : callAllQuiet quiet (chainOf T U (quiet ++ h :: rest)) = some c1) :
    c1.forcedStop = false ∧
    (chainOf T U (quiet ++ h :: rest)).Run
      = runLoop (h :: rest) quiet.length c1 (List.range' 0 quiet.length) := by
  have := runLoop_quiet quiet (h :: rest) 0 _ c1 [] hq (chainOf_forcedStop _)
  refine ⟨this.1, ?_⟩
  simp only [Chain.Run, chainOf_handlers]
  simpa using this.2

/-! ## Run: failure, stop, and completion -/

/-- C1: on the chain `NewChain().Add(h1)...Add(hn)`, when the handlers
before handler `k` all return nil without calling stop and handler `k`
returns the failure `e`, `Run` returns exactly `e` and has called handlers
`1..k` and no other, whether or not handler `k` called stop (nothing is
assumed about it). -/
theorem C1_Run_returns_first_failure (T U : GoType) (quiet rest : List Handler) (h : Handler)
    (c1 ck : Chain T U) (e : GoError)
    (hquiet : callAllQuiet quiet (chainOf T U (quiet ++ h :: rest)) = some c1)
    (hfail : h.call c1 = .ok (ck, some e)) :
    ∃ r, (chainOf T U (quiet ++ h :: rest)).Run = .ok r ∧ r.err = some e ∧
      r.invoked = List.range (quiet.length + 1) ∧
      ∀ j, quiet.length < j → j ∉ r.invoked := by
  obtain ⟨_, hrun⟩ := Run_quiet_then quiet rest h c1 hquiet
  refine ⟨⟨ck, some e, List.range (quiet.length + 1)⟩, ?_, rfl, rfl, ?_⟩
  · rw [hrun]
    simp only [runLoop, hfail, range'_zero_snoc]
  · intro j hj hmem
    have := List.mem_range.mp hmem
    omega

theorem C1_Run_returns_first_failure_witness :
    callAllQuiet [setFirstName]
        (chainOf ChainContext ChainResult ([setFirstName] ++ setLastNameStopAndFail :: [setValue]))
      = some ⟨.struct [.string "John", .string ""], .struct [.int 0],
          [setFirstName, setLastNameStopAndFail, setValue], false⟩ ∧
    setLastNameStopAndFail.callsStop (T := ChainContext) (U := ChainResult)
        ⟨.struct [.string "John", .string ""], .struct [.int 0],
          [setFirstName, setLastNameStopAndFail, setValue], false⟩ = true ∧
    ∃ r, (chainOf ChainContext ChainResult
        ([setFirstName] ++ setLastNameStopAndFail :: [setValue])).Run = .ok r ∧
      r.err = some unknownError ∧ r.invoked = List.range (1 + 1) ∧
      ∀ j, 1 < j → j ∉ r.invoked :=
  ⟨rfl, rfl, C1_Run_returns_first_failure ChainContext ChainResult [setFirstName] [setValue]
    setLastNameStopAndFail _
    ⟨.struct [.string "John", .string "Doe"], .struct [.int 0],
      [setFirstName, setLastNameStopAndFail, setValue], true⟩ unknownError rfl rfl⟩

/-- C2: on the chain `NewChain().Add(h1)...Add(hn)`, when handlers `1..k`
all return nil and handler `k` is the first to call stop, `Run` returns nil,
has called handlers `1..k` and no other, and leaves the chain that handler
`k` returned with, which is the chain that calling `h1, .., hk` in order
produces; so do its context and result. -/
theorem C2_Run_stops_after_stop (T U : GoType) (quiet rest : List Handler) (h : Handler)
    (c1 ck : Chain T U)
    (hquiet : callAllQuiet quiet (chainOf T U (quiet ++ h :: rest)) = some c1)
    (hok : h.call c1 = .ok (ck, none))
    (hstop : h.callsStop c1 = true) :
    ∃ r, (chainOf T U (quiet ++ h :: rest)).Run = .ok r ∧ r.err = none ∧
      r.invoked = List.range (quiet.length + 1) ∧
      (∀ j, quiet.length < j → j ∉ r.invoked) ∧
      r.chain = ck ∧
      callInOrder (quiet ++ [h]) (chainOf T U (quiet ++ h :: rest)) = .ok r.chain ∧
      (∀ cfin, callInOrder (quiet ++ [h]) (chainOf T U (quiet ++ h :: rest)) = .ok cfin →
        r.chain.GetContext = cfin.GetContext ∧ r.chain.GetResult = cfin.GetResult) := by
  obtain ⟨_, hrun⟩ := Run_quiet_then quiet rest h c1 hquiet
  have hflag : ck.forcedStop = true := by
    rw [call_forcedStop h c1 ck none hok, hstop]; simp
  have hin : callInOrder (quiet ++ [h]) (chainOf T U (quiet ++ h :: rest)) = .ok ck := by
    rw [callInOrder_quiet quiet [h] _ c1 hquiet]
    simp [callInOrder, hok]
  refine ⟨⟨ck, none, List.range (quiet.length + 1)⟩, ?_, rfl, rfl, ?_, rfl, hin, ?_⟩
  · rw [hrun]
    simp only [runLoop, hok, hflag, if_true, range'_zero_snoc]
  · intro j hj hmem
    have := List.mem_range.mp hmem
    omega
  · intro cfin hfin
    rw [hin] at hfin
    cases hfin
    exact ⟨rfl, rfl⟩

theorem C2_Run_stops_after_stop_witness :
    callAllQuiet [setFirstName]
        (chainOf ChainContext ChainResult ([setFirstName] ++ stopThenSetLastName :: [setValue]))
      = some ⟨.struct [.string "John", .string ""], .struct [.int 0],
          [setFirstName, stopThenSetLastName, setValue], false⟩ ∧
    ∃ r, (chainOf ChainContext ChainResult
        ([setFirstName] ++ stopThenSetLastName :: [setValue])).Run = .ok r ∧
      r.err = none ∧ r.invoked = [0, 1] ∧
      r.chain.GetContext = .struct [.string "John", .string "Doe"] ∧
      r.chain.GetResult = .struct [.int 0] := by
  refine ⟨rfl, ?_⟩
  obtain ⟨r, h1, h2, h3, _, h5, _⟩ :=
    C2_Run_stops_after_stop ChainContext ChainResult [setFirstName] [setValue]
      stopThenSetLastName _
      ⟨.struct [.string "John", .string "Doe"], .struct [.int 0],
        [setFirstName, stopThenSetLastName, setValue], true⟩ rfl rfl rfl
  exact ⟨r, h1, h2, h3, by rw [h5]; rfl, by rw [h5]; rfl⟩

/-- C3: on the chain `NewChain().Add(h1)...Add(hn)`, `n ≥ 0`, when every
handler returns nil and none calls stop, `Run` returns nil and has called
every handler once, in insertion order; the chain it leaves is the one that
calling `h1, .., hn` in order on the new chain, whose context and result are
the zero values, produces. -/
theorem C3_Run_calls_all_in_order (T U : GoType) (hs : List Handler) (cn : Chain T U)
    (hquiet : callAllQuiet hs (chainOf T U hs) = some cn) :
    ∃ r, (chainOf T U hs).Run = .ok r ∧ r.err = none ∧
      r.invoked = List.range hs.length ∧
      callInOrder hs (chainOf T U hs) = .ok r.chain ∧
      (chainOf T U hs).ctx = T.zero ∧ (chainOf T U hs).result = U.zero ∧
      (∀ cfin, callInOrder hs (chainOf T U hs) = .ok cfin →
        r.chain.GetContext = cfin.GetContext ∧ r.chain.GetResult = cfin.GetResult) := by
  have hloop := (runLoop_quiet hs [] 0 _ cn [] hquiet (chainOf_forcedStop _)).2
  have hin : callInOrder hs (chainOf T U hs) = .ok cn := by
    have := callInOrder_quiet hs [] _ cn hquiet
    simpa [callInOrder] using this
  have hzero := foldl_Add_ctx hs (NewChain T U)
  refine ⟨⟨cn, none, List.range hs.length⟩, ?_, rfl, rfl, hin, hzero.1, hzero.2, ?_⟩
  · simp only [Chain.Run, chainOf_handlers]
    simp only [List.append_nil, Nat.zero_add, List.nil_append] at hloop
    rw [hloop, List.range_eq_range']
    rfl
  · intro cfin hfin
    rw [hin] at hfin
    cases hfin
    exact ⟨rfl, rfl⟩

theorem C3_Run_calls_all_in_order_witness :
    callAllQuiet [setFirstName, setLastName, setValue]
        (chainOf ChainContext ChainResult [setFirstName, setLastName, setValue])
      = some ⟨.struct [.string "John", .string "Doe"], .struct [.int (-100)],
          [setFirstName, setLastName, setValue], false⟩ ∧
    ∃ r, (chainOf ChainContext ChainResult [setFirstName, setLastName, setValue]).Run = .ok r ∧
      r.err = none ∧ r.invoked = [0, 1, 2] ∧
      r.chain.GetContext = .struct [.string "John", .string "Doe"] ∧
      r.chain.GetResult = .struct [.int (-100)] := by
  refine ⟨rfl, ?_⟩
  obtain ⟨r, h1, h2, h3, h4, _⟩ :=
    C3_Run_calls_all_in_order ChainContext ChainResult [setFirstName, setLastName, setValue]
      _ rfl
  refine ⟨r, h1, h2, h3, ?_, ?_⟩
  · have : (Except.ok r.chain : Except String _) = .ok _ := h4.symm.trans rfl
    injection this with this
    rw [this]; rfl
  · have : (Except.ok r.chain : Except String _) = .ok _ := h4.symm.trans rfl
    injection this with this
    rw [this]; rfl

/-- C4: `Run` does not roll back.  When `Run` returns the failure `e` of
handler `k` (the handlers before it returned nil without calling stop), the
chain it leaves is the one handler `k` returned with, which is the chain that
calling `h1, .., hk` in order produces; so do its context and result. -/
theorem C4_Run_no_rollback (T U : GoType) (quiet rest : List Handler) (h : Handler)
    (c1 ck : Chain T U) (e : GoError)
    (hquiet : callAllQuiet quiet (chainOf T U (quiet ++ h :: rest)) = some c1)
    (hfail : h.call c1 = .ok (ck, some e)) :
    ∃ r, (chainOf T U (quiet ++ h :: rest)).Run = .ok r ∧ r.err = some e ∧
      r.chain = ck ∧
      callInOrder (quiet ++ [h]) (chainOf T U (quiet ++ h :: rest)) = .ok r.chain ∧
      (∀ cfin, callInOrder (quiet ++ [h]) (chainOf T U (quiet ++ h :: rest)) = .ok cfin →
        r.chain.GetContext = cfin.GetContext ∧ r.chain.GetResult = cfin.GetResult) := by
  obtain ⟨_, hrun⟩ := Run_quiet_then quiet rest h c1 hquiet
  have hin : callInOrder (quiet ++ [h]) (chainOf T U (quiet ++ h :: rest)) = .ok ck := by
    rw [callInOrder_quiet quiet [h] _ c1 hquiet]
    simp [callInOrder, hfail]
  refine ⟨⟨ck, some e, List.range (quiet.length + 1)⟩, ?_, rfl, rfl, hin, ?_⟩
  · rw [hrun]
    simp only [runLoop, hfail, range'_zero_snoc]
  · intro cfin hfin
    rw [hin] at hfin
    cases hfin
    exact ⟨rfl, rfl⟩

theorem C4_Run_no_rollback_witness :
    callAllQuiet [setFirstName, setValue]
        (chainOf ChainContext ChainResult
          ([setFirstName, setValue] ++ setLastNameStopAndFail :: [callStop]))
      = some ⟨.struct [.string "John", .string ""], .struct [.int (-100)],
          [setFirstName, setValue, setLastNameStopAndFail, callStop], false⟩ ∧
    ∃ r, (chainOf ChainContext ChainResult
        ([setFirstName, setValue] ++ setLastNameStopAndFail :: [callStop])).Run = .ok r ∧
      r.err = some unknownError ∧
      r.chain.GetContext = .struct [.string "John", .string "Doe"] ∧
      r.chain.GetResult = .struct [.int (-100)] := by
  refine ⟨rfl, ?_⟩
  obtain ⟨r, h1, h2, h3, _⟩ :=
    C4_Run_no_rollback ChainContext ChainResult [setFirstName, setValue] [callStop]
      setLastNameStopAndFail _
      ⟨.struct [.string "John", .string "Doe"], .struct [.int (-100)],
        [setFirstName, setValue, setLastNameStopAndFail, callStop], true⟩ unknownError rfl rfl
  exact ⟨r, h1, h2, by rw [h3]; rfl, by rw [h3]; rfl⟩

/-! ## UpdateContext and UpdateResult: success -/

/-- C5: on a chain whose context type is a struct, for an exported field
`name` of that struct and a value whose runtime type is the field's declared
type, `UpdateContext` returns nil; afterwards `GetContext` has the value in
that field and every other field as before, and result, handlers and stop
flag are unchanged.  In particular, on a new chain over `ChainContext`,
`UpdateContext("FirstName", a)` then `UpdateContext("LastName", b)` gives the
context with `FirstName` `a` and `LastName` `b`, for all strings `a`, `b`. -/
theorem C5_UpdateContext_assigns_field :
    (∀ (T U : GoType) (c : Chain T U) (name : String) (f : StructField) (v : Dyn),
      T.Kind = .Struct → c.ctx.hasShape T = true → name ≠ "" →
      T.fields.find name 0 = some f → f.exported = true → v.typ = f.typ →
      ∃ c', c.UpdateContext name (some v) = .ok (c', none) ∧
        c'.GetContext.field f.index = some v.val ∧
        (∀ j, j ≠ f.index → c'.GetContext.field j = c.GetContext.field j) ∧
        c'.GetResult = c.GetResult ∧ c'.handlers = c.handlers ∧
        c'.forcedStop = c.forcedStop) ∧
    (∀ (U : GoType) (a b : String), ∃ c1 c2,
      (NewChain ChainContext U).UpdateContext "FirstName" (anyString a) = .ok (c1, none) ∧
      c1.UpdateContext "LastName" (anyString b) = .ok (c2, none) ∧
      c2.GetContext = .struct [.string a, .string b]) := by
  constructor
  · intro T U c name f v hT hshape hn hf he hv
    refine ⟨_, UpdateContext_assign c name hT hn f hf he v hv, ?_, ?_, rfl, rfl, rfl⟩
    · exact field_setField_self T _ _ _ hT hshape (find_index_lt name _ f hf)
    · intro j hj
      exact field_setField_other _ _ _ _ hj
  · intro U a b
    refine ⟨⟨.struct [.string a, .string ""], U.zero, [], false⟩,
      ⟨.struct [.string a, .string b], U.zero, [], false⟩, ?_, ?_, ?_⟩
    · exact UpdateContext_assign (NewChain ChainContext U) "FirstName" rfl (by decide)
        ⟨0, "FirstName", true, .string⟩ rfl rfl ⟨.string, .string a⟩ rfl
    · exact UpdateContext_assign (T := ChainContext) (U := U)
        ⟨.struct [.string a, .string ""], U.zero, [], false⟩ "LastName" rfl (by decide)
        ⟨1, "LastName", true, .string⟩ rfl rfl ⟨.string, .string b⟩ rfl
    · rfl

theorem C5_UpdateContext_assigns_field_witness :
    ChainContext.Kind = .Struct ∧
    (NewChain ChainContext ChainResult).ctx.hasShape ChainContext = true ∧
    "LastName" ≠ "" ∧
    ChainContext.fields.find "LastName" 0 = some ⟨1, "LastName", true, .string⟩ ∧
    ∃ c', (NewChain ChainContext ChainResult).UpdateContext "LastName"
        (some ⟨.string, .string "Doe"⟩) = .ok (c', none) ∧
      c'.GetContext.field 1 = some (.string "Doe") ∧
      (∀ j, j ≠ 1 → c'.GetContext.field j
        = (NewChain ChainContext ChainResult).GetContext.field j) ∧
      c'.GetResult = (NewChain ChainContext ChainResult).GetResult ∧
      c'.handlers = [] ∧ c'.forcedStop = false :=
  ⟨rfl, rfl, by decide, rfl,
    C5_UpdateContext_assigns_field.1 ChainContext ChainResult (NewChain ChainContext ChainResult)
      "LastName" ⟨1, "LastName", true, .string⟩ ⟨.string, .string "Doe"⟩
      rfl rfl (by decide) rfl rfl rfl⟩

/-- C6: on a chain whose result type is a struct, for an exported field
`name` of that struct and a value whose runtime type is the field's declared
type, `UpdateResult` returns nil; afterwards `GetResult` has the value in
that field and every other field as before, and context, handlers and stop
flag are unchanged.  In particular `UpdateResult("Value", -100)` on a new
chain over `ChainResult` gives a result whose `Value` is `-100`. -/
theorem C6_UpdateResult_assigns_field :
    (∀ (T U : GoType) (c : Chain T U) (name : String) (f : StructField) (v : Dyn),
      U.Kind = .Struct → c.result.hasShape U = true → name ≠ "" →
      U.fields.find name 0 = some f → f.exported = true → v.typ = f.typ →
      ∃ c', c.UpdateResult name (some v) = .ok (c', none) ∧
        c'.GetResult.field f.index = some v.val ∧
        (∀ j, j ≠ f.index → c'.GetResult.field j = c.GetResult.field j) ∧
        c'.GetContext = c.GetContext ∧ c'.handlers = c.handlers ∧
        c'.forcedStop = c.forcedStop) ∧
    (∀ (T : GoType), ∃ c',
      (NewChain T ChainResult).UpdateResult "Value" (anyInt (-100)) = .ok (c', none) ∧
      c'.GetResult = .struct [.int (-100)] ∧
      c'.GetResult.field 0 = some (.int (-100))) := by
  constructor
  · intro T U c name f v hU hshape hn hf he hv
    refine ⟨_, UpdateResult_assign c name hU hn f hf he v hv, ?_, ?_, rfl, rfl, rfl⟩
    · exact field_setField_self U _ _ _ hU hshape (find_index_lt name _ f hf)
    · intro j hj
      exact field_setField_other _ _ _ _ hj
  · intro T
    refine ⟨⟨T.zero, .struct [.int (-100)], [], false⟩, ?_, ?_, ?_⟩
    · exact UpdateResult_assign (NewChain T ChainResult) "Value" rfl (by decide)
        ⟨0, "Value", true, .int⟩ rfl rfl ⟨.int, .int (-100)⟩ rfl
    · rfl
    · rfl

theorem C6_UpdateResult_assigns_field_witness :
    ChainResult.Kind = .Struct ∧
    (NewChain ChainContext ChainResult).result.hasShape ChainResult = true ∧
    "Value" ≠ "" ∧
    ChainResult.fields.find "Value" 0 = some ⟨0, "Value", true, .int⟩ ∧
    ∃ c', (NewChain ChainContext ChainResult).UpdateResult "Value"
        (some ⟨.int, .int (-100)⟩) = .ok (c', none) ∧
      c'.GetResult.field 0 = some (.int (-100)) ∧
      (∀ j, j ≠ 0 → c'.GetResult.field j
        = (NewChain ChainContext ChainResult).GetResult.field j) ∧
      c'.GetContext = (NewChain ChainContext ChainResult).GetContext ∧
      c'.handlers = [] ∧ c'.forcedStop = false :=
  ⟨rfl, rfl, by decide, rfl,
    C6_UpdateResult_assigns_field.1 ChainContext ChainResult (NewChain ChainContext ChainResult)
      "Value" ⟨0, "Value", true, .int⟩ ⟨.int, .int (-100)⟩
      rfl rfl (by decide) rfl rfl rfl⟩

/-! ## UpdateContext and UpdateResult: failures -/

/-- C7: on a chain whose context (resp. result) type is a struct, for a name
that is no field of that struct, declared or promoted (the `FieldByName` of
the struct type finds none, as it does for every name that no field has at
any depth of embedding), `UpdateContext` (resp. `UpdateResult`) fails,
whatever the value (nil and wrongly typed values included), with an error
that matches `ErrStructFieldNotExported`, the sentinel of the
field-not-found kind, and matches none of the other six sentinels; that
sentinel differs from the other six. -/
theorem C7_unknown_field_not_found (T U : GoType) (c : Chain T U) (name : String)
    (value : GoAny) :
    (T.Kind = .Struct → T.FieldByName name = none →
      ∃ e, c.UpdateContext name value = .ok (c, some e) ∧
        errors.Is e ErrStructFieldNotExported = true ∧
        ∀ s ∈ [ErrStructFieldCannotBeChanged, ErrIncompatibleValueType,
          ErrContextShouldBeStruct, ErrResultShouldBeStruct, ErrContextIsUndefined,
          ErrResultIsUndefined], errors.Is e s = false) ∧
    (U.Kind = .Struct → U.FieldByName name = none →
      ∃ e, c.UpdateResult name value = .ok (c, some e) ∧
        errors.Is e ErrStructFieldNotExported = true ∧
        ∀ s ∈ [ErrStructFieldCannotBeChanged, ErrIncompatibleValueType,
          ErrContextShouldBeStruct, ErrResultShouldBeStruct, ErrContextIsUndefined,
          ErrResultIsUndefined], errors.Is e s = false) ∧
    (∀ s ∈ [ErrStructFieldCannotBeChanged, ErrIncompatibleValueType,
      ErrContextShouldBeStruct, ErrResultShouldBeStruct, ErrContextIsUndefined,
      ErrResultIsUndefined], ErrStructFieldNotExported ≠ s) := by
  refine ⟨?_, ?_, by decide⟩
  · intro hT hf
    refine ⟨_, UpdateContext_notFound c name value hT hf, Is_Join_left _ _, ?_⟩
    intro s hs
    simp only [List.mem_cons, List.mem_singleton, List.not_mem_nil, or_false] at hs
    rcases hs with rfl | rfl | rfl | rfl | rfl | rfl <;>
    exact Is_Join_other _ _ _ _ _ (by decide)
  · intro hU hf
    refine ⟨_, UpdateResult_notFound c name value hU hf, by decide, by decide⟩

theorem C7_unknown_field_not_found_witness :
    Person.Kind = .Struct ∧ Person.FieldByName "Unknown" = none ∧
    Person.FieldByName "City" = some ([1], ⟨0, "City", true, .string⟩) ∧
    (NewChain Person ChainResult).UpdateContext "City" (anyString "Lisbon")
      = .ok (⟨.struct [.string "", .struct [.string "Lisbon"]], .struct [.int 0], [], false⟩,
          none) ∧
    ∃ e, (NewChain Person ChainResult).UpdateContext "Unknown" (anyInt 42)
        = .ok (NewChain Person ChainResult, some e) ∧
      errors.Is e ErrStructFieldNotExported = true ∧
      ∀ s ∈ [ErrStructFieldCannotBeChanged, ErrIncompatibleValueType,
        ErrContextShouldBeStruct, ErrResultShouldBeStruct, ErrContextIsUndefined,
        ErrResultIsUndefined], errors.Is e s = false :=
  ⟨rfl, rfl, rfl, rfl,
    (C7_unknown_field_not_found Person ChainResult (NewChain Person ChainResult)
      "Unknown" (anyInt 42)).1 rfl rfl⟩

/-- C8: on a chain whose context (resp. result) type is a struct, for an
exported field `name` and a non-nil value whose runtime type is not the
field's declared type, `UpdateContext` (resp. `UpdateResult`) fails with an
error that matches `ErrIncompatibleValueType`; conversely, when the call on
an exported field returns an error that matches `ErrIncompatibleValueType`,
the value is non-nil and its runtime type differs from the field's. -/
theorem C8_type_mismatch_incompatible (T U : GoType) (c : Chain T U) (name : String)
    (f : StructField) (hn : name ≠ "") (he : f.exported = true) :
    (T.Kind = .Struct → T.fields.find name 0 = some f →
      (∀ v : Dyn, v.typ ≠ f.typ →
        ∃ e, c.UpdateContext name (some v) = .ok (c, some e) ∧
          errors.Is e ErrIncompatibleValueType = true) ∧
      (∀ (value : GoAny) (c' : Chain T U) (e : GoError),
        c.UpdateContext name value = .ok (c', some e) →
        errors.Is e ErrIncompatibleValueType = true →
        ∃ v, value = some v ∧ v.typ ≠ f.typ)) ∧
    (U.Kind = .Struct → U.fields.find name 0 = some f →
      (∀ v : Dyn, v.typ ≠ f.typ →
        ∃ e, c.UpdateResult name (some v) = .ok (c, some e) ∧
          errors.Is e ErrIncompatibleValueType = true) ∧
      (∀ (value : GoAny) (c' : Chain T U) (e : GoError),
        c.UpdateResult name value = .ok (c', some e) →
        errors.Is e ErrIncompatibleValueType = true →
        ∃ v, value = some v ∧ v.typ ≠ f.typ)) := by
  constructor
  · intro hT hf
    constructor
    · intro v hv
      exact ⟨_, UpdateContext_mismatch c name hT hn f hf he v hv,
        Is_Join_left _ _⟩
    · intro value c' e hcall _
      cases value with
      | none => rw [UpdateContext_nil c name hT hn f hf he] at hcall; cases hcall
      | some v =>
        refine ⟨v, rfl, fun hv => ?_⟩
        rw [UpdateContext_assign c name hT hn f hf he v hv] at hcall
        simp at hcall
  · intro hU hf
    constructor
    · intro v hv
      exact ⟨_, UpdateResult_mismatch c name hU hn f hf he v hv,
        Is_Join_left _ _⟩
    · intro value c' e hcall _
      cases value with
      | none => rw [UpdateResult_nil c name hU hn f hf he] at hcall; cases hcall
      | some v =>
        refine ⟨v, rfl, fun hv => ?_⟩
        rw [UpdateResult_assign c name hU hn f hf he v hv] at hcall
        simp at hcall

theorem C8_type_mismatch_incompatible_witness :
    "FirstName" ≠ "" ∧ ChainContext.Kind = .Struct ∧
    ChainContext.fields.find "FirstName" 0 = some ⟨0, "FirstName", true, .string⟩ ∧
    GoType.int ≠ GoType.string ∧
    ∃ e, (NewChain ChainContext ChainResult).UpdateContext "FirstName" (some ⟨.int, .int 42⟩)
        = .ok (NewChain ChainContext ChainResult, some e) ∧
      errors.Is e ErrIncompatibleValueType = true :=
  ⟨by decide, rfl, rfl, by decide,
    ((C8_type_mismatch_incompatible ChainContext ChainResult
      (NewChain ChainContext ChainResult) "FirstName" ⟨0, "FirstName", true, .string⟩
      (by decide) rfl).1 rfl rfl).1 ⟨.int, .int 42⟩ (by decide)⟩

/-- C9: on a chain whose context (resp. result) type is a struct with a
field `name` that is not exported, `UpdateContext` (resp. `UpdateResult`)
fails, whatever the value (a value of the field's own type included), with
an error that matches `ErrStructFieldCannotBeChanged`, the sentinel of the
field-not-mutable kind, and does not match `ErrStructFieldNotExported`, the
sentinel of the field-not-found kind. -/
theorem C9_unexported_field_not_mutable (T U : GoType) (c : Chain T U) (name : String)
    (f : StructField) (value : GoAny) (hn : name ≠ "") (he : f.exported = false) :
    (T.Kind = .Struct → T.fields.find name 0 = some f →
      ∃ e, c.UpdateContext name value = .ok (c, some e) ∧
        errors.Is e ErrStructFieldCannotBeChanged = true ∧
        errors.Is e ErrStructFieldNotExported = false) ∧
    (U.Kind = .Struct → U.fields.find name 0 = some f →
      ∃ e, c.UpdateResult name value = .ok (c, some e) ∧
        errors.Is e ErrStructFieldCannotBeChanged = true ∧
        errors.Is e ErrStructFieldNotExported = false) := by
  constructor
  · intro hT hf
    exact ⟨_, UpdateContext_notSettable c name value hT hn f hf he,
      Is_Join_left _ _, Is_Join_other _ _ _ _ _ (by decide)⟩
  · intro hU hf
    exact ⟨_, UpdateResult_notSettable c name value hU hn f hf he,
      Is_Join_left _ _, Is_Join_other _ _ _ _ _ (by decide)⟩

theorem C9_unexported_field_not_mutable_witness :
    "balance" ≠ "" ∧ Account.Kind = .Struct ∧
    Account.fields.find "balance" 0 = some ⟨1, "balance", false, .int64⟩ ∧
    ∃ e, (NewChain Account ChainResult).UpdateContext "balance" (some ⟨.int64, .int 7⟩)
        = .ok (NewChain Account ChainResult, some e) ∧
      errors.Is e ErrStructFieldCannotBeChanged = true ∧
      errors.Is e ErrStructFieldNotExported = false :=
  ⟨by decide, rfl, rfl,
    (C9_unexported_field_not_mutable Account ChainResult (NewChain Account ChainResult)
      "balance" ⟨1, "balance", false, .int64⟩ (some ⟨.int64, .int 7⟩) (by decide) rfl).1
      rfl rfl⟩

/-- C10: on a chain whose context type is not of kind struct (an integer,
string, slice, map or pointer-to-struct type, for instance), `UpdateContext`
returns `ErrContextShouldBeStruct` for every field name and every value and
leaves the chain as it was; likewise `UpdateResult` returns
`ErrResultShouldBeStruct` when the result type is not of kind struct. -/
theorem C10_not_struct_target (T U : GoType) (c : Chain T U) (name : String)
    (value : GoAny) :
    (T.Kind ≠ .Struct →
      c.UpdateContext name value = .ok (c, some ErrContextShouldBeStruct)) ∧
    (U.Kind ≠ .Struct →
      c.UpdateResult name value = .ok (c, some ErrResultShouldBeStruct)) :=
  ⟨UpdateContext_notStruct c name value, UpdateResult_notStruct c name value⟩

theorem C10_not_struct_target_witness :
    (GoType.pointer ChainContext).Kind ≠ .Struct ∧
    (GoType.map .string .int).Kind ≠ .Struct ∧
    (NewChain (.pointer ChainContext) (.map .string .int)).UpdateContext "FirstName"
        (anyString "John")
      = .ok (NewChain (.pointer ChainContext) (.map .string .int),
          some ErrContextShouldBeStruct) ∧
    (NewChain (.pointer ChainContext) (.map .string .int)).UpdateResult "Value" none
      = .ok (NewChain (.pointer ChainContext) (.map .string .int),
          some ErrResultShouldBeStruct) :=
  ⟨by decide, by decide,
    (C10_not_struct_target (.pointer ChainContext) (.map .string .int)
      (NewChain (.pointer ChainContext) (.map .string .int)) "FirstName"
      (anyString "John")).1 (by decide),
    (C10_not_struct_target (.pointer ChainContext) (.map .string .int)
      (NewChain (.pointer ChainContext) (.map .string .int)) "Value" none).2 (by decide)⟩

/-! ## Construction, the stop callback and the getters -/

/-- C11: `NewChain` returns a chain with zero-valued context and result, no
handler and the stop flag unset; `Add(h)` puts `h` at the end of the handler
sequence and changes neither context, result nor stop flag (the chain it
returns is the receiver after the call); hence the handler sequence of
`NewChain().Add(h1)...Add(hn)` is `[h1, .., hn]`, of length `n`. -/
theorem C11_NewChain_and_Add (T U : GoType) :
    ((NewChain T U).GetContext = T.zero ∧ (NewChain T U).GetResult = U.zero ∧
      (NewChain T U).handlers = [] ∧ (NewChain T U).forcedStop = false) ∧
    (∀ (c : Chain T U) (h : Handler),
      (c.Add h).handlers = c.handlers ++ [h] ∧ (c.Add h).ctx = c.ctx ∧
      (c.Add h).result = c.result ∧ (c.Add h).forcedStop = c.forcedStop) ∧
    (∀ hs : List Handler,
      (chainOf T U hs).handlers = hs ∧ (chainOf T U hs).handlers.length = hs.length ∧
      (chainOf T U hs).ctx = T.zero ∧ (chainOf T U hs).result = U.zero ∧
      (chainOf T U hs).forcedStop = false) := by
  refine ⟨⟨rfl, rfl, rfl, rfl⟩, fun c h => ⟨rfl, rfl, rfl, rfl⟩, fun hs => ?_⟩
  have hz := foldl_Add_ctx hs (NewChain T U)
  exact ⟨chainOf_handlers hs, by rw [chainOf_handlers], hz.1, hz.2, chainOf_forcedStop hs⟩

/-- C12: the stop callback bound to a chain sets the stop flag of that chain
and changes nothing else: context, result and handler sequence are as
before, and calling it again leaves the chain as one call left it. -/
theorem C12_stop_sets_flag_only (T U : GoType) (c : Chain T U) :
    (stop c).forcedStop = true ∧ (stop c).ctx = c.ctx ∧ (stop c).result = c.result ∧
    (stop c).handlers = c.handlers ∧ stop (stop c) = stop c ∧
    (∀ n : Nat, Nat.iterate stop (n + 1) c = stop c) ∧
    (∀ next : Handler, (Handler.stop next).call c = next.call (stop c)) := by
  refine ⟨rfl, rfl, rfl, rfl, rfl, ?_, fun _ => rfl⟩
  intro n
  induction n with
  | zero => rfl
  | succ n ih =>
    rw [Function.iterate_succ_apply', ih]
    rfl

theorem getContextTimes_call (n : Nat) :
    ∀ (next : List GoVal → Handler) (c : Chain T U),
      (getContextTimes n next).call c = (next (List.replicate n c.GetContext)).call c := by
  induction n with
  | zero => intro next c; rfl
  | succ n ih =>
    intro next c
    simp only [getContextTimes, Handler.call, ih, List.replicate_succ]

theorem getResultTimes_call (n : Nat) :
    ∀ (next : List GoVal → Handler) (c : Chain T U),
      (getResultTimes n next).call c = (next (List.replicate n c.GetResult)).call c := by
  induction n with
  | zero => intro next c; rfl
  | succ n ih =>
    intro next c
    simp only [getResultTimes, Handler.call, ih, List.replicate_succ]

/-- C14: `GetContext` and `GetResult` return the stored context and result
and leave the chain as it is: a handler that calls `GetContext` (resp.
`GetResult`) any number of times in a row reads the stored context (resp.
result) each time and goes on from the chain it started with. -/
theorem C14_getters_are_pure_reads (T U : GoType) (c : Chain T U) :
    c.GetContext = c.ctx ∧ c.GetResult = c.result ∧
    (∀ (n : Nat) (next : List GoVal → Handler),
      (getContextTimes n next).call c = (next (List.replicate n c.ctx)).call c) ∧
    (∀ (n : Nat) (next : List GoVal → Handler),
      (getResultTimes n next).call c = (next (List.replicate n c.result)).call c) :=
  ⟨rfl, rfl, fun n next => getContextTimes_call n next c,
    fun n next => getResultTimes_call n next c⟩

/-! ## UpdateResult against UpdateContext -/

/-- An error that joins one of the three field sentinels with a detail is of
the same kinds on the context path and on the result path. -/
theorem kinds_of_joined (i : Nat) (hi : 4 ≤ i) (s m : String) (k : ErrorKind) :
    errors.Is (errors.Join (.errorString i s) (.formatted m)) k.ofContext
      = errors.Is (errors.Join (.errorString i s) (.formatted m)) k.ofResult := by
  have h0 : i ≠ 0 := by omega
  have h1 : i ≠ 1 := by omega
  have h2 : i ≠ 2 := by omega
  have h3 : i ≠ 3 := by omega
  cases k <;>
  simp [ErrorKind.ofContext, ErrorKind.ofResult, errors.Is, errors.Join,
    ErrContextIsUndefined, ErrResultIsUndefined, ErrContextShouldBeStruct,
    ErrResultShouldBeStruct, h0, h1, h2, h3]

theorem kinds_of_notStruct (k : ErrorKind) :
    errors.Is ErrContextShouldBeStruct k.ofContext
      = errors.Is ErrResultShouldBeStruct k.ofResult := by
  cases k <;> decide

theorem kinds_of_notFound (m : String) (k : ErrorKind) :
    errors.Is (errors.Join ErrStructFieldNotExported (.formatted m)) k.ofContext
      = errors.Is ErrStructFieldNotExported k.ofResult := by
  cases k <;>
  simp [ErrorKind.ofContext, ErrorKind.ofResult, errors.Is, errors.Join,
    ErrContextIsUndefined, ErrResultIsUndefined, ErrContextShouldBeStruct,
    ErrResultShouldBeStruct, ErrStructFieldNotExported, ErrStructFieldCannotBeChanged,
    ErrIncompatibleValueType]

/-- For a type `S`, a value stored as the context of one chain and as the
result of another, a field name and a value, `UpdateResult` on the second
does what `UpdateContext` does on the first: both calls panic alike, or
both return nil and store the same updated value, the rest of each chain
unchanged, or both fail, each chain unchanged, with errors of the same
kinds (each kind tested against the sentinel of its path). -/
theorem UpdateResult_mirrors_UpdateContext (S T U : GoType) (c1 : Chain S U)
    (c2 : Chain T S) (name : String) (value : GoAny) (hsame : c1.ctx = c2.result) :
    (∃ p, c1.UpdateContext name value = .error p ∧ c2.UpdateResult name value = .error p) ∨
    (∃ x, c1.UpdateContext name value = .ok ({ c1 with ctx := x }, none) ∧
      c2.UpdateResult name value = .ok ({ c2 with result := x }, none)) ∨
    (∃ e1 e2, c1.UpdateContext name value = .ok (c1, some e1) ∧
      c2.UpdateResult name value = .ok (c2, some e2) ∧
      ∀ k : ErrorKind, errors.Is e1 k.ofContext = errors.Is e2 k.ofResult) := by
  by_cases hS : S.Kind = .Struct
  · cases hf : S.FieldByName name with
    | none =>
      exact Or.inr (Or.inr ⟨_, _, UpdateContext_notFound c1 name value hS hf,
        UpdateResult_notFound c2 name value hS hf, kinds_of_notFound _⟩)
    | some found =>
      obtain ⟨outer, f⟩ := found
      cases hp : c1.ctx.nilEmbedded outer with
      | true =>
        exact Or.inl ⟨_, UpdateContext_nilEmbedded c1 name value hS outer f hf hp,
          UpdateResult_nilEmbedded c2 name value hS outer f hf (hsame ▸ hp)⟩
      | false =>
        have hp2 : c2.result.nilEmbedded outer = false := hsame ▸ hp
        cases he : f.exported with
        | false =>
          exact Or.inr (Or.inr ⟨_, _,
            UpdateContext_notSettable_at c1 name value hS outer f hf hp he,
            UpdateResult_notSettable_at c2 name value hS outer f hf hp2 he,
            kinds_of_joined 5 (by decide) _ _⟩)
        | true =>
          cases value with
          | none =>
            exact Or.inl ⟨_, UpdateContext_nil_at c1 name hS outer f hf hp he,
              UpdateResult_nil_at c2 name hS outer f hf hp2 he⟩
          | some v =>
            by_cases hv : v.typ = f.typ
            · refine Or.inr (Or.inl ⟨c1.ctx.setPath outer f.index v.val,
                UpdateContext_assign_at c1 name hS outer f hf hp he v hv, ?_⟩)
              rw [hsame]
              exact UpdateResult_assign_at c2 name hS outer f hf hp2 he v hv
            · exact Or.inr (Or.inr ⟨_, _,
                UpdateContext_mismatch_at c1 name hS outer f hf hp he v hv,
                UpdateResult_mismatch_at c2 name hS outer f hf hp2 he v hv,
                kinds_of_joined 6 (by decide) _ _⟩)
  · exact Or.inr (Or.inr ⟨_, _, UpdateContext_notStruct c1 name value hS,
      UpdateResult_notStruct c2 name value hS, kinds_of_notStruct⟩)

/-- C13: on the code a nil value breaks the contract that `UpdateResult`
shares with `UpdateContext`.  For the struct `ChainResult`, stored as the
result of one new chain and as the context of another, and its exported
field `Value`, `UpdateResult("Value", nil)` neither succeeds nor fails with
an error of some kind: it panics in `reflect.Value.Type`, as
`UpdateContext("Value", nil)` does, and returns nothing. -/
theorem C13_nil_value_breaks_contract :
    (NewChain ChainResult ChainContext).ctx = (NewChain ChainContext ChainResult).result ∧
    ChainResult.FieldByName "Value" = some ([], ⟨0, "Value", true, .int⟩) ∧
    (NewChain ChainContext ChainResult).UpdateResult "Value" none
      = .error "reflect: call of reflect.Value.Type on zero Value" ∧
    (NewChain ChainResult ChainContext).UpdateContext "Value" none
      = .error "reflect: call of reflect.Value.Type on zero Value" ∧
    (∀ (c' : Chain ChainContext ChainResult) (e : Option GoError),
      (NewChain ChainContext ChainResult).UpdateResult "Value" none ≠ .ok (c', e)) := by
  have h : (NewChain ChainContext ChainResult).UpdateResult "Value" none
      = .error "reflect: call of reflect.Value.Type on zero Value" := rfl
  refine ⟨rfl, rfl, h, rfl, ?_⟩
  intro c' e hr
  rw [h] at hr
  cases hr

/-! ## The errors the update methods return -/

/-- The errors `UpdateContext` can return. -/
theorem UpdateContext_errors (c c' : Chain T U) (name : String) (value : GoAny) (e : GoError)
    (h : c.UpdateContext name value = .ok (c', some e)) :
    e = ErrContextShouldBeStruct ∨
    e = errors.Join ErrStructFieldNotExported
      (fmt.Errorf "the " " field does not exist" name) ∨
    e = errors.Join ErrStructFieldCannotBeChanged
      (fmt.Errorf "the " " field cannot be changed" name) ∨
    e = errors.Join ErrIncompatibleValueType
      (fmt.Errorf "The value type is incompatible with the " " field" name) := by
  by_cases hT : T.Kind = .Struct
  · cases hf : T.FieldByName name with
    | none =>
      rw [UpdateContext_notFound c name value hT hf] at h
      simp only [Except.ok.injEq, Prod.mk.injEq, Option.some.injEq] at h
      exact Or.inr (Or.inl h.2.symm)
    | some found =>
      obtain ⟨outer, f⟩ := found
      cases hp : c.ctx.nilEmbedded outer with
      | true => rw [UpdateContext_nilEmbedded c name value hT outer f hf hp] at h; cases h
      | false =>
        cases he : f.exported with
        | false =>
          rw [UpdateContext_notSettable_at c name value hT outer f hf hp he] at h
          simp only [Except.ok.injEq, Prod.mk.injEq, Option.some.injEq] at h
          exact Or.inr (Or.inr (Or.inl h.2.symm))
        | true =>
          cases value with
          | none => rw [UpdateContext_nil_at c name hT outer f hf hp he] at h; cases h
          | some v =>
            by_cases hv : v.typ = f.typ
            · rw [UpdateContext_assign_at c name hT outer f hf hp he v hv] at h
              simp at h
            · rw [UpdateContext_mismatch_at c name hT outer f hf hp he v hv] at h
              simp only [Except.ok.injEq, Prod.mk.injEq, Option.some.injEq] at h
              exact Or.inr (Or.inr (Or.inr h.2.symm))
  · rw [UpdateContext_notStruct c name value hT] at h
    simp only [Except.ok.injEq, Prod.mk.injEq, Option.some.injEq] at h
    exact Or.inl h.2.symm

/-- The errors `UpdateResult` can return. -/
theorem UpdateResult_errors (c c' : Chain T U) (name : String) (value : GoAny) (e : GoError)
    (h : c.UpdateResult name value = .ok (c', some e)) :
    e = ErrResultShouldBeStruct ∨
    e = ErrStructFieldNotExported ∨
    e = errors.Join ErrStructFieldCannotBeChanged
      (fmt.Errorf "the " " field cannot be changed" name) ∨
    e = errors.Join ErrIncompatibleValueType
      (fmt.Errorf "The value type is incompatible with the " " field" name) := by
  by_cases hU : U.Kind = .Struct
  · cases hf : U.FieldByName name with
    | none =>
      rw [UpdateResult_notFound c name value hU hf] at h
      simp only [Except.ok.injEq, Prod.mk.injEq, Option.some.injEq] at h
      exact Or.inr (Or.inl h.2.symm)
    | some found =>
      obtain ⟨outer, f⟩ := found
      cases hp : c.result.nilEmbedded outer with
      | true => rw [UpdateResult_nilEmbedded c name value hU outer f hf hp] at h; cases h
      | false =>
        cases he : f.exported with
        | false =>
          rw [UpdateResult_notSettable_at c name value hU outer f hf hp he] at h
          simp only [Except.ok.injEq, Prod.mk.injEq, Option.some.injEq] at h
          exact Or.inr (Or.inr (Or.inl h.2.symm))
        | true =>
          cases value with
          | none => rw [UpdateResult_nil_at c name hU outer f hf hp he] at h; cases h
          | some v =>
            by_cases hv : v.typ = f.typ
            · rw [UpdateResult_assign_at c name hU outer f hf hp he v hv] at h
              simp at h
            · rw [UpdateResult_mismatch_at c name hU outer f hf hp he v hv] at h
              simp only [Except.ok.injEq, Prod.mk.injEq, Option.some.injEq] at h
              exact Or.inr (Or.inr (Or.inr h.2.symm))
  · rw [UpdateResult_notStruct c name value hU] at h
    simp only [Except.ok.injEq, Prod.mk.injEq, Option.some.injEq] at h
    exact Or.inl h.2.symm

/-- C15: on the code a nil value makes the update methods panic, where the
specification has them return the incompatible-value failure: on a new chain over
`ChainContext` and `ChainResult`, `UpdateContext("FirstName", nil)` and
`UpdateResult("Value", nil)` panic in `reflect.Value.Type`, called on the
zero Value that `reflect.ValueOf(nil)` is, and return nothing. -/
theorem C15_nil_value_panics :
    (NewChain ChainContext ChainResult).UpdateContext "FirstName" none
      = .error "reflect: call of reflect.Value.Type on zero Value" ∧
    (NewChain ChainContext ChainResult).UpdateResult "Value" none
      = .error "reflect: call of reflect.Value.Type on zero Value" ∧
    (reflect.ValueOf none).IsValid = false ∧
    (∀ r, (NewChain ChainContext ChainResult).UpdateContext "FirstName" none ≠ .ok r) ∧
    (∀ r, (NewChain ChainContext ChainResult).UpdateResult "Value" none ≠ .ok r) := by
  have h1 : (NewChain ChainContext ChainResult).UpdateContext "FirstName" none
      = .error "reflect: call of reflect.Value.Type on zero Value" := rfl
  have h2 : (NewChain ChainContext ChainResult).UpdateResult "Value" none
      = .error "reflect: call of reflect.Value.Type on zero Value" := rfl
  refine ⟨h1, h2, rfl, ?_, ?_⟩
  · intro r hr
    rw [h1] at hr
    cases hr
  · intro r hr
    rw [h2] at hr
    cases hr

/-- C16: the target-undefined failure cannot arise.  The Value made from the
address of the stored context (resp. result) is of kind `Pointer`, and an
error that `UpdateContext` (resp. `UpdateResult`) returns is never
`ErrContextIsUndefined` (resp. `ErrResultIsUndefined`) nor matches it. -/
theorem C16_target_undefined_unreachable (T U : GoType) (c c' : Chain T U) (name : String)
    (value : GoAny) (e : GoError) :
    (reflect.ValueOfAddr T c.ctx).Kind = .Pointer ∧
    (reflect.ValueOfAddr U c.result).Kind = .Pointer ∧
    (c.UpdateContext name value = .ok (c', some e) →
      e ≠ ErrContextIsUndefined ∧ errors.Is e ErrContextIsUndefined = false) ∧
    (c.UpdateResult name value = .ok (c', some e) →
      e ≠ ErrResultIsUndefined ∧ errors.Is e ErrResultIsUndefined = false) := by
  refine ⟨rfl, rfl, ?_, ?_⟩
  · intro h
    have hIs : errors.Is e ErrContextIsUndefined = false := by
      rcases UpdateContext_errors c c' name value e h with rfl | rfl | rfl | rfl
      · decide
      · exact Is_Join_other _ _ _ _ _ (by decide)
      · exact Is_Join_other _ _ _ _ _ (by decide)
      · exact Is_Join_other _ _ _ _ _ (by decide)
    refine ⟨fun he => ?_, hIs⟩
    rw [he, Is_self] at hIs
    cases hIs
  · intro h
    have hIs : errors.Is e ErrResultIsUndefined = false := by
      rcases UpdateResult_errors c c' name value e h with rfl | rfl | rfl | rfl
      · decide
      · decide
      · exact Is_Join_other _ _ _ _ _ (by decide)
      · exact Is_Join_other _ _ _ _ _ (by decide)
    refine ⟨fun he => ?_, hIs⟩
    rw [he, Is_self] at hIs
    cases hIs

theorem C16_target_undefined_unreachable_witness :
    (NewChain GoType.int ChainResult).UpdateContext "FirstName" none
      = .ok (NewChain GoType.int ChainResult, some ErrContextShouldBeStruct) ∧
    ErrContextShouldBeStruct ≠ ErrContextIsUndefined ∧
    errors.Is ErrContextShouldBeStruct ErrContextIsUndefined = false :=
  ⟨rfl,
    (C16_target_undefined_unreachable GoType.int ChainResult (NewChain GoType.int ChainResult)
      (NewChain GoType.int ChainResult) "FirstName" none ErrContextShouldBeStruct).2.2.1 rfl⟩

/-! ## The stop flag over the operations -/

/-- When the loop of `Run` returns, the stop flag is set exactly when it was
set at the start or a handler the loop called has called stop. -/
theorem runLoop_forcedStop (hs : List Handler) :
    ∀ (i : Nat) (c : Chain T U) (log : List Nat) (r : RunResult T U),
      runLoop hs i c log = .ok r →
      r.chain.forcedStop = (c.forcedStop || runCallsStop hs c) := by
  induction hs with
  | nil =>
    intro i c log r hr
    simp only [runLoop, Except.ok.injEq] at hr
    subst hr
    simp [runCallsStop]
  | cons h rest ih =>
    intro i c log r hr
    simp only [runLoop] at hr
    cases hc : h.call c with
    | error p => simp [hc] at hr
    | ok out =>
      obtain ⟨c', e⟩ := out
      have hflag := call_forcedStop h c c' e hc
      cases e with
      | some err =>
        simp only [hc, Except.ok.injEq] at hr
        subst hr
        simp [runCallsStop, hc, hflag]
      | none =>
        simp only [hc] at hr
        cases hs' : c'.forcedStop with
        | true =>
          simp only [hs', if_true, Except.ok.injEq] at hr
          subst hr
          rw [hs'] at hflag
          simp only [runCallsStop, hc, hs', if_true, Bool.or_false]
          exact hflag
        | false =>
          simp only [hs', Bool.false_eq_true, if_false] at hr
          have := ih _ _ _ _ hr
          rw [hs'] at hflag this
          simp only [runCallsStop, hc, hs', Bool.false_eq_true, if_false]
          rw [this, ← Bool.or_assoc, ← hflag]

/-- C17: the stop flag is never cleared.  From a chain whose flag is set,
`Add`, the stop callback, `UpdateContext`, `UpdateResult`, a handler call
and `Run` all leave it set (`GetContext` and `GetResult` return a value and
leave the chain as it is); and when a handler calls stop, the flag is set
when that handler returns and when the `Run` that called it returns. -/
theorem C17_forcedStop_never_cleared (T U : GoType) (c : Chain T U) :
    (c.forcedStop = true →
      (∀ h, (c.Add h).forcedStop = true) ∧
      (stop c).forcedStop = true ∧
      (∀ name value c' e, c.UpdateContext name value = .ok (c', e) → c'.forcedStop = true) ∧
      (∀ name value c' e, c.UpdateResult name value = .ok (c', e) → c'.forcedStop = true) ∧
      (∀ (h : Handler) c' e, h.call c = .ok (c', e) → c'.forcedStop = true) ∧
      (∀ r, c.Run = .ok r → r.chain.forcedStop = true)) ∧
    (∀ (h : Handler) c' e, h.callsStop c = true → h.call c = .ok (c', e) →
      c'.forcedStop = true) ∧
    (∀ r, runCallsStop c.handlers c = true → c.Run = .ok r → r.chain.forcedStop = true) := by
  refine ⟨fun hset => ⟨fun _ => hset, rfl, ?_, ?_, ?_, ?_⟩, ?_, ?_⟩
  · intro name value c' e h
    rw [UpdateContext_forcedStop c name value c' e h, hset]
  · intro name value c' e h
    rw [UpdateResult_forcedStop c name value c' e h, hset]
  · intro h c' e hc
    rw [call_forcedStop h c c' e hc, hset]
    rfl
  · intro r hr
    rw [runLoop_forcedStop c.handlers 0 c [] r hr, hset]
    rfl
  · intro h c' e hstop hc
    rw [call_forcedStop h c c' e hc, hstop]
    simp
  · intro r hstop hr
    rw [runLoop_forcedStop c.handlers 0 c [] r hr, hstop]
    simp

theorem C17_forcedStop_never_cleared_witness :
    (stop (chainOf ChainContext ChainResult [setFirstName, setLastName])).forcedStop = true ∧
    (∃ r, (stop (chainOf ChainContext ChainResult [setFirstName, setLastName])).Run = .ok r ∧
      r.invoked = [0] ∧ r.chain.forcedStop = true) := by
  refine ⟨rfl, ⟨⟨.struct [.string "John", .string ""], .struct [.int 0],
    [setFirstName, setLastName], true⟩, none, [0]⟩, rfl, rfl, ?_⟩
  exact (C17_forcedStop_never_cleared ChainContext ChainResult
    (stop (chainOf ChainContext ChainResult [setFirstName, setLastName]))).1 rfl
    |>.2.2.2.2.2 _ rfl

/-- C18: a failed update changes nothing.  When `UpdateContext` or
`UpdateResult` returns a failure, the chain after the call is the chain
before it: same context, result, handler sequence and stop flag. -/
theorem C18_failed_update_changes_nothing (T U : GoType) (c c' : Chain T U) (name : String)
    (value : GoAny) (e : GoError) :
    (c.UpdateContext name value = .ok (c', some e) →
      c' = c ∧ c'.ctx = c.ctx ∧ c'.result = c.result ∧ c'.handlers = c.handlers ∧
      c'.forcedStop = c.forcedStop) ∧
    (c.UpdateResult name value = .ok (c', some e) →
      c' = c ∧ c'.ctx = c.ctx ∧ c'.result = c.result ∧ c'.handlers = c.handlers ∧
      c'.forcedStop = c.forcedStop) := by
  constructor
  · intro h
    rcases UpdateContext_cases c name value c' (some e) h with ⟨rfl, _⟩ | ⟨_, _, hnone⟩
    · exact ⟨rfl, rfl, rfl, rfl, rfl⟩
    · cases hnone
  · intro h
    rcases UpdateResult_cases c name value c' (some e) h with ⟨rfl, _⟩ | ⟨_, _, hnone⟩
    · exact ⟨rfl, rfl, rfl, rfl, rfl⟩
    · cases hnone

theorem C18_failed_update_changes_nothing_witness :
    (chainOf ChainContext ChainResult [setFirstName]).UpdateContext "FirstName" (anyInt 42)
      = .ok (chainOf ChainContext ChainResult [setFirstName],
          some (errors.Join ErrIncompatibleValueType
            (fmt.Errorf "The value type is incompatible with the " " field" "FirstName"))) ∧
    chainOf ChainContext ChainResult [setFirstName]
      = chainOf ChainContext ChainResult [setFirstName] ∧
    (chainOf ChainContext ChainResult [setFirstName]).ctx
      = .struct [.string "", .string ""] :=
  ⟨rfl,
    ((C18_failed_update_changes_nothing ChainContext ChainResult
      (chainOf ChainContext ChainResult [setFirstName])
      (chainOf ChainContext ChainResult [setFirstName]) "FirstName" (anyInt 42)
      (errors.Join ErrIncompatibleValueType
        (fmt.Errorf "The value type is incompatible with the " " field" "FirstName"))).1
      rfl).1, rfl⟩

/-! ## Run on a chain whose stop flag is already set -/

/-- C19: `Run` does not unset the stop flag when it starts.  On a chain
whose flag is already set and whose first handler is `h`, `Run` calls `h`
and no other handler and returns what `h` returns: nil when `h` returns
nil, whether or not `h` calls stop. -/
theorem C19_Run_with_flag_already_set (T U : GoType) (c c' : Chain T U) (h : Handler)
    (rest : List Handler) (e : Option GoError)
    (hflag : c.forcedStop = true) (hhandlers : c.handlers = h :: rest)
    (hcall : h.call c = .ok (c', e)) :
    c.Run = .ok ⟨c', e, [0]⟩ ∧ c'.forcedStop = true ∧
    (e = none → ∃ r, c.Run = .ok r ∧ r.err = none ∧ r.invoked = [0] ∧
      ∀ j, 0 < j → j ∉ r.invoked) := by
  have hset : c'.forcedStop = true := by
    rw [call_forcedStop h c c' e hcall, hflag]
    rfl
  have hrun : c.Run = .ok ⟨c', e, [0]⟩ := by
    cases e with
    | some err => simp [Chain.Run, hhandlers, runLoop, hcall]
    | none => simp [Chain.Run, hhandlers, runLoop, hcall, hset]
  refine ⟨hrun, hset, fun he => ⟨_, hrun, he, rfl, ?_⟩⟩
  intro j hj hmem
  simp only [List.mem_singleton] at hmem
  omega

theorem C19_Run_with_flag_already_set_witness :
    (∃ r1, (chainOf ChainContext ChainResult [setFirstName, callStop, setLastName]).Run
        = .ok r1 ∧ r1.invoked = [0, 1] ∧
      r1.chain = ⟨.struct [.string "John", .string ""], .struct [.int 0],
        [setFirstName, callStop, setLastName], true⟩) ∧
    setFirstName.callsStop (T := ChainContext) (U := ChainResult)
      ⟨.struct [.string "John", .string ""], .struct [.int 0],
        [setFirstName, callStop, setLastName], true⟩ = false ∧
    Chain.Run (T := ChainContext) (U := ChainResult)
      ⟨.struct [.string "John", .string ""], .struct [.int 0],
        [setFirstName, callStop, setLastName], true⟩
      = .ok ⟨⟨.struct [.string "John", .string ""], .struct [.int 0],
          [setFirstName, callStop, setLastName], true⟩, none, [0]⟩ :=
  ⟨⟨_, rfl, rfl, rfl⟩, rfl,
    (C19_Run_with_flag_already_set ChainContext ChainResult
      ⟨.struct [.string "John", .string ""], .struct [.int 0],
        [setFirstName, callStop, setLastName], true⟩
      ⟨.struct [.string "John", .string ""], .struct [.int 0],
        [setFirstName, callStop, setLastName], true⟩
      setFirstName [callStop, setLastName] none rfl rfl rfl).1⟩

/-! ## The two not-found errors -/

/-- C20: for a field name absent from the struct (no field, declared or
promoted, is found by that name), `UpdateContext` returns
`ErrStructFieldNotExported` joined with a detail whose text names the
field, and `UpdateResult` returns `ErrStructFieldNotExported` itself, with
no detail; the two errors differ, and both match
`ErrStructFieldNotExported`. -/
theorem C20_not_found_errors_differ (T U : GoType) (c : Chain T U) (name : String)
    (value : GoAny) :
    (T.Kind = .Struct → T.FieldByName name = none →
      c.UpdateContext name value
        = .ok (c, some (errors.Join ErrStructFieldNotExported
            (.formatted ("the " ++ name ++ " field does not exist")))) ∧
      (errors.Join ErrStructFieldNotExported
          (.formatted ("the " ++ name ++ " field does not exist"))).Error
        = "struct field is not exported" ++ "\n" ++ ("the " ++ name ++ " field does not exist") ∧
      errors.Join ErrStructFieldNotExported
          (.formatted ("the " ++ name ++ " field does not exist"))
        ≠ ErrStructFieldNotExported ∧
      errors.Is (errors.Join ErrStructFieldNotExported
          (.formatted ("the " ++ name ++ " field does not exist")))
        ErrStructFieldNotExported = true) ∧
    (U.Kind = .Struct → U.FieldByName name = none →
      c.UpdateResult name value = .ok (c, some ErrStructFieldNotExported) ∧
      ErrStructFieldNotExported.Error = "struct field is not exported" ∧
      errors.Is ErrStructFieldNotExported ErrStructFieldNotExported = true) := by
  constructor
  · intro hT hf
    refine ⟨UpdateContext_notFound c name value hT hf, rfl, ?_, Is_Join_left _ _⟩
    intro h
    cases h
  · intro hU hf
    exact ⟨UpdateResult_notFound c name value hU hf, rfl, Is_self _⟩

theorem C20_not_found_errors_differ_witness :
    Person.Kind = .Struct ∧ Person.FieldByName "Unknown" = none ∧
    Visitor.Kind = .Struct ∧ Visitor.FieldByName "Unknown" = none ∧
    (NewChain Person Visitor).UpdateContext "Unknown" (anyInt 1)
      = .ok (NewChain Person Visitor,
          some (.join (.errorString 4 "struct field is not exported")
            (.formatted "the Unknown field does not exist"))) ∧
    (NewChain Person Visitor).UpdateResult "Unknown" (anyInt 1)
      = .ok (NewChain Person Visitor,
          some (.errorString 4 "struct field is not exported")) :=
  ⟨rfl, rfl, rfl, rfl,
    ((C20_not_found_errors_differ Person Visitor (NewChain Person Visitor)
      "Unknown" (anyInt 1)).1 rfl rfl).1,
    ((C20_not_found_errors_differ Person Visitor (NewChain Person Visitor)
      "Unknown" (anyInt 1)).2 rfl rfl).1⟩

end Gochain
